import Mathlib

set_option maxRecDepth 1000000

/-!
Shallow embedding of the rodos FAT-style file-system engine
(`src/domain/*.rs`, `src/infrastructure/*.rs`, `src/core/content_type.rs`,
`src/core/filter_type.rs`, `src/core/sort_type.rs`).

Modeling conventions:
* Machine integers (`u8`, `u16`, `u32`, `usize`) are `Nat`; the casts that occur
  in the source (`as u16`, `as u32`) are modeled with explicit `% 2 ^ w`.
* `i32` arithmetic (the packed-date computation) is modeled with `Int` and an
  explicit two's-complement cast `i32_to_u32`.
* Byte buffers are `List Nat`; the cluster grid (`storage_buffer`) is a
  `List (List Nat)`; the external storage file is a flat `List Nat`.
* Fallible Rust code (`Result`) becomes `Except String`; a Rust panic
  (`unwrap` on `None`, out-of-range indexing, `read_exact` failure) and
  non-termination of a `while` loop are both modeled as `Option.none` of the
  surrounding computation.
* Every `while` loop is modeled by a fueled recursion.  Loops whose iteration
  count is bounded by the data (payload length, cluster count) receive a fuel
  that provably dominates that bound, so `none` of such a loop means the Rust
  loop diverges or panics; the recursive tree walks (`link_root_table_to_directory`,
  `delete_file`) take an explicit fuel parameter.
* `Utc::now()` is modeled as the fixed instant `utc_now` (its value is never
  relevant to the properties proved here).
* The `Stdin`/`Temp` content generators read external files; they are modeled
  as producing no bytes (no claim depends on them).
-/

namespace Rodos

/-- Read a byte at an index, as Rust slice indexing (`v[i]`); the theorems keep
all such reads in range, so the out-of-range default is never hit there. -/
def byteAt (l : List Nat) (i : Nat) : Nat := l.getD i 0

/-- Decoding of `u16::from_be_bytes([b0, b1])`. -/
def u16_from_be (b0 b1 : Nat) : Nat := b0 * 256 + b1

/-- Decoding of `u32::from_be_bytes([b0, b1, b2, b3])`. -/
def u32_from_be (b0 b1 b2 b3 : Nat) : Nat :=
  b0 * 16777216 + b1 * 65536 + b2 * 256 + b3

/-- Encoding of `u16::to_be_bytes`. -/
def u16_bytes (w : Nat) : List Nat := [w / 256 % 256, w % 256]

/-- Encoding of `u32::to_be_bytes`. -/
def u32_bytes (w : Nat) : List Nat :=
  [w / 16777216 % 256, w / 65536 % 256, w / 256 % 256, w % 256]

/-- Write a run of bytes starting at an index, as the Rust pattern
`bytes.iter().enumerate().for_each(|(i, v)| result[start + i] = v)`. -/
def setBytesFrom : List Nat → Nat → List Nat → List Nat
  | l, _, [] => l
  | l, s, b :: bs => setBytesFrom (l.set s b) (s + 1) bs

/-- Two's-complement cast of an `i32` value to `u32` (`as u32`). -/
def i32_to_u32 (x : Int) : Nat := (x % 4294967296).toNat

/-- Accumulating pass of `listChunks`: `c` counts down the slots left in the
current chunk, `acc` holds its elements in reverse. -/
def chunksAux (k : Nat) : List α → List α → Nat → List (List α)
  | [], acc, _ => if acc.isEmpty then [] else [acc.reverse]
  | a :: t, acc, c =>
    if c ≤ 1 then (a :: acc).reverse :: chunksAux k t [] k
    else chunksAux k t (a :: acc) (c - 1)

/-- Split a list into consecutive chunks of length `k` (the last chunk may be
shorter), as Rust `slice::chunks` (which panics on `k = 0`; every caller
guards that case before using the result). -/
def listChunks (k : Nat) (l : List α) : List (List α) :=
  if k = 0 then (if l.isEmpty then [] else [l]) else chunksAux k l [] k

/-- Calendar support for `chrono`'s validity check. -/
def is_leap_year (y : Nat) : Bool :=
  (y % 4 == 0 && y % 100 != 0) || y % 400 == 0

/-- Days in a month, Gregorian calendar. -/
def days_in_month (y m : Nat) : Nat :=
  if m == 2 then (if is_leap_year y then 29 else 28)
  else if m == 4 || m == 6 || m == 9 || m == 11 then 30
  else 31

/-- A calendar date-time, modeling `chrono::DateTime<Utc>` at second resolution. -/
structure DateTimeT where
  year : Nat
  month : Nat
  day : Nat
  hour : Nat
  minute : Nat
  second : Nat
deriving DecidableEq, Repr

/-- Validity predicate of `Utc.with_ymd_and_hms` (it yields `LocalResult::Single`
exactly on real calendar instants; `Utc` has no DST ambiguity). -/
def DateTimeT.valid (dt : DateTimeT) : Bool :=
  1 ≤ dt.month && dt.month ≤ 12 && 1 ≤ dt.day && dt.day ≤ days_in_month dt.year dt.month
    && dt.hour < 24 && dt.minute < 60 && dt.second < 60

/-- Construction through `Utc.with_ymd_and_hms`, `none` for `LocalResult::None`. -/
def mkDateTime (year month day hour minute second : Nat) : Option DateTimeT :=
  let dt : DateTimeT := ⟨year, month, day, hour, minute, second⟩
  if dt.valid then some dt else none

/-- Default value of `DateTime<Utc>` (the Unix epoch). -/
def DateTimeT.epoch : DateTimeT := ⟨1970, 1, 1, 0, 0, 0⟩

/-- Fixed instant standing in for `Utc::now()`. -/
def utc_now : DateTimeT := ⟨2024, 6, 1, 12, 0, 0⟩

/-- The FAT cell variants of `src/domain/fat.rs`. -/
inductive FatValue where
  | Free
  | Reserved
  | EndOfChain
  | Data (v : Nat)
  | Bad
deriving DecidableEq, Repr

/-- Serialization `impl From<FatValue> for u16`. -/
def FatValue.toU16 : FatValue → Nat
  | .Free => 0x0000
  | .Reserved => 0x0001
  | .Bad => 0x0002
  | .Data v => v
  | .EndOfChain => 0xFFFF

/-- Deserialization `impl From<u16> for FatValue`. -/
def FatValue.ofU16 (v : Nat) : FatValue :=
  if v = 0x0000 then .Free
  else if v = 0x0001 then .Reserved
  else if v = 0x0002 then .Bad
  else if v = 0xFFFF then .EndOfChain
  else .Data v

/-- The attribute tokens of `src/domain/file_entry.rs`. -/
inductive FileEntryAttributes where
  | ReadOnly
  | ReadWrite
  | Hidden
  | Visible
  | File
  | Directory
deriving DecidableEq, Repr

/-- Serialization `impl Into<u8> for FileEntryAttributes`. -/
def FileEntryAttributes.toU8 : FileEntryAttributes → Nat
  | .ReadOnly => 0x01
  | .ReadWrite => 0x00
  | .Hidden => 0x02
  | .Visible => 0x00
  | .File => 0x04
  | .Directory => 0x00

/-- Bitwise-or fold `FileEntryAttributes::combine`. -/
def FileEntryAttributes.combine (l : List FileEntryAttributes) : Nat :=
  l.foldl (fun acc x => acc ||| x.toU8) 0

/-- A directory record / tree node (`FileEntry` in `src/domain/file_entry.rs`).
The parent link and the child list make this a nested inductive type. -/
inductive FileEntry where
  | mk (name : String) (extension : String) (size : Nat) (first_cluster : Nat)
      (attributes : Nat) (last_modification_datetime : DateTimeT)
      (parent_entry : Option FileEntry) (children_entries : Option (List FileEntry))

def FileEntry.name : FileEntry → String
  | .mk n _ _ _ _ _ _ _ => n

def FileEntry.extension : FileEntry → String
  | .mk _ e _ _ _ _ _ _ => e

def FileEntry.size : FileEntry → Nat
  | .mk _ _ s _ _ _ _ _ => s

def FileEntry.first_cluster : FileEntry → Nat
  | .mk _ _ _ f _ _ _ _ => f

def FileEntry.attributes : FileEntry → Nat
  | .mk _ _ _ _ a _ _ _ => a

def FileEntry.last_modification_datetime : FileEntry → DateTimeT
  | .mk _ _ _ _ _ d _ _ => d

def FileEntry.parent_entry : FileEntry → Option FileEntry
  | .mk _ _ _ _ _ _ p _ => p

def FileEntry.children_entries : FileEntry → Option (List FileEntry)
  | .mk _ _ _ _ _ _ _ c => c

/-- Functional update of the `name` field. -/
def FileEntry.withName : FileEntry → String → FileEntry
  | .mk _ e s f a d p c, n => .mk n e s f a d p c

/-- Functional update of the `extension` field. -/
def FileEntry.withExtension : FileEntry → String → FileEntry
  | .mk n _ s f a d p c, e => .mk n e s f a d p c

/-- Functional update of the `size` field. -/
def FileEntry.withSize : FileEntry → Nat → FileEntry
  | .mk n e _ f a d p c, s => .mk n e s f a d p c

/-- Functional update of the `attributes` field. -/
def FileEntry.withAttributes : FileEntry → Nat → FileEntry
  | .mk n e s f _ d p c, a => .mk n e s f a d p c

/-- Functional update of the `parent_entry` field. -/
def FileEntry.withParent : FileEntry → Option FileEntry → FileEntry
  | .mk n e s f a d _ c, p => .mk n e s f a d p c

/-- Functional update of the `children_entries` field. -/
def FileEntry.withChildren : FileEntry → Option (List FileEntry) → FileEntry
  | .mk n e s f a d p _, c => .mk n e s f a d p c

/-- The `Default` impl of `FileEntry`. -/
def FileEntry.defaultEntry : FileEntry :=
  .mk "" "" 0 0 0 DateTimeT.epoch none none

/-- `FileEntry::root()`. -/
def FileEntry.root : FileEntry :=
  .mk "/" "" 0 0 (FileEntryAttributes.toU8 .ReadOnly) utc_now none (some [])

/-- `FileEntry::is_root`. -/
def FileEntry.is_root (e : FileEntry) : Bool := e.name == "/"

/-- `FileEntry::is_file` (attribute bit 2). -/
def FileEntry.is_file (e : FileEntry) : Bool := e.attributes &&& 0x04 != 0

/-- `FileEntry::is_hidden` (attribute bit 1). -/
def FileEntry.is_hidden (e : FileEntry) : Bool := e.attributes &&& 0x02 != 0

/-- `FileEntry::is_read_only` (attribute bit 0). -/
def FileEntry.is_read_only (e : FileEntry) : Bool := e.attributes &&& 0x01 != 0

/-- The packed time word, `(hour << 11) | (minute << 5) | (second / 2)` followed
by the `as u16` truncation of the source. -/
def timeWord (dt : DateTimeT) : Nat :=
  ((dt.hour <<< 11) ||| (dt.minute <<< 5) ||| (dt.second / 2)) % 65536

/-- The packed date word, `((year - 1980) << 9) as u32 | (month << 5) | day`
followed by the `as u16` truncation (the year subtraction is `i32`). -/
def dateWord (dt : DateTimeT) : Nat :=
  ((i32_to_u32 ((Int.ofNat dt.year - 1980) * 512)) ||| (dt.month <<< 5) ||| dt.day) % 65536

/-- Serialization `impl Into<ByteArray> for FileEntry` (32-byte record; names are
ASCII, so `str::as_bytes` is the code-point list). -/
def FileEntry.intoBytes (e : FileEntry) : List Nat :=
  let result := List.replicate 32 0
  let result := setBytesFrom result 0 (e.name.toList.map Char.toNat)
  let result := setBytesFrom result 8 (e.extension.toList.map Char.toNat)
  let result := setBytesFrom result 11 (u32_bytes e.size)
  let result := setBytesFrom result 15 (u16_bytes e.first_cluster)
  let result := result.set 17 e.attributes
  let result := setBytesFrom result 18 (u16_bytes (timeWord e.last_modification_datetime))
  setBytesFrom result 20 (u16_bytes (dateWord e.last_modification_datetime))

/-- `FileEntry::convert_u16_tuple_to_date_time`; `none` models the
`LocalResult` mismatch panic of the caller. -/
def convert_u16_tuple_to_date_time (date time : Nat) : Option DateTimeT :=
  let year := (date >>> 9) + 1980
  let month := (date >>> 5) &&& 0x0F
  let day := date &&& 0x1F
  let hour := (time >>> 11) &&& 0x1F
  let minute := (time >>> 5) &&& 0x3F
  let second := (time &&& 0x1F) * 2
  mkDateTime year month day hour minute second

/-- Deserialization `impl From<ByteArray> for FileEntry`; `none` models the
panics (record shorter than the indexed range, invalid date-time). -/
def FileEntry.fromBytes (v : List Nat) : Option FileEntry :=
  if v.length < 22 then none
  else
    let name := (List.range 8).foldl
      (fun acc i => if byteAt v i != 0 then acc.push (Char.ofNat (byteAt v i)) else acc) ""
    let ext := (List.range 3).foldl
      (fun acc i => if byteAt v (8 + i) != 0 then acc.push (Char.ofNat (byteAt v (8 + i))) else acc) ""
    let size := u32_from_be (byteAt v 11) (byteAt v 12) (byteAt v 13) (byteAt v 14)
    let first_cluster := u16_from_be (byteAt v 15) (byteAt v 16)
    let attributes := byteAt v 17
    let time := u16_from_be (byteAt v 18) (byteAt v 19)
    let date := u16_from_be (byteAt v 20) (byteAt v 21)
    match convert_u16_tuple_to_date_time date time with
    | some dt => some (.mk name ext size first_cluster attributes dt none none)
    | none => none

/-- The boot sector record (`src/domain/boot_sector.rs`). -/
structure BootSector where
  cluster_size : Nat
  cluster_count : Nat
  root_entry_cell_size : Nat
  root_entry_count : Nat
  fat_cell_size : Nat
  clusters_per_boot_sector : Nat
deriving DecidableEq, Repr

/-- The `Default` impl of `BootSector`. -/
def BootSector.defaultBoot : BootSector := ⟨16, 8192, 32, 64, 2, 1⟩

/-- Deserialization `impl From<ByteArray> for BootSector`; `none` models the
panic on fewer than 12 bytes. -/
def BootSector.fromBytes (v : List Nat) : Option BootSector :=
  if v.length < 12 then none
  else some
    { cluster_size := u16_from_be (byteAt v 0) (byteAt v 1)
      cluster_count := u16_from_be (byteAt v 2) (byteAt v 3)
      root_entry_cell_size := u16_from_be (byteAt v 4) (byteAt v 5)
      root_entry_count := u16_from_be (byteAt v 6) (byteAt v 7)
      fat_cell_size := u16_from_be (byteAt v 8) (byteAt v 9)
      clusters_per_boot_sector := u16_from_be (byteAt v 10) (byteAt v 11) }

/-- Serialization `impl Into<ByteArray> for BootSector` (padded to one cluster). -/
def BootSector.intoBytes (b : BootSector) : List Nat :=
  let result := List.replicate b.cluster_size 0
  let result := setBytesFrom result 0 (u16_bytes b.cluster_size)
  let result := setBytesFrom result 2 (u16_bytes b.cluster_count)
  let result := setBytesFrom result 4 (u16_bytes b.root_entry_cell_size)
  let result := setBytesFrom result 6 (u16_bytes b.root_entry_count)
  let result := setBytesFrom result 8 (u16_bytes b.fat_cell_size)
  setBytesFrom result 10 (u16_bytes b.clusters_per_boot_sector)

/-- The content kinds of `src/core/content_type.rs`. -/
inductive ContentType where
  | Alpha
  | Num
  | Hex
  | Stdin
  | Temp
  | Unknown
deriving DecidableEq, Repr

/-- The `ALPHA_CHARS` table, as bytes. -/
def alphaChars : List Nat := "ABCDEFGHIJKLMNOPQRSTUVWXYZ".toList.map Char.toNat

/-- The `NUM_CHARS` table, as bytes. -/
def numChars : List Nat := "0123456789".toList.map Char.toNat

/-- The `HEX_CHARS` table, as bytes. -/
def hexChars : List Nat := "0123456789ABCDEF".toList.map Char.toNat

/-- Cyclic generation, `result[i] = chars.iter().cycle().nth(i)`. -/
def generateCyclic (chars : List Nat) (size : Nat) : List Nat :=
  (List.range size).map (fun i => chars.getD (i % chars.length) 0)

/-- `ContentGenerator::generate`.  `Stdin`/`Temp` read external files and are
modeled as producing no bytes. -/
def ContentGenerator.generate : ContentType → Nat → List Nat
  | .Alpha, size => generateCyclic alphaChars size
  | .Num, size => generateCyclic numChars size
  | .Hex, size => generateCyclic hexChars size
  | .Stdin, _ => []
  | .Temp, _ => []
  | .Unknown, _ => []

/-- The filter tokens of `src/core/filter_type.rs`. -/
inductive FilterType where
  | Name (s : String)
  | Extension (s : String)
  | Files
  | Directories
  | InShortFormat
  | InLongFormat
  | AllAndHidden
  | All
deriving DecidableEq, Repr

/-- The sort keys of `src/core/sort_type.rs`. -/
inductive SortType where
  | NameAsc
  | NameDesc
  | DateAsc
  | DateDesc
  | SizeAsc
  | SizeDesc
deriving DecidableEq, Repr

/-- `CreateRequest` (`src/application/commands/create.rs`). -/
structure CreateRequest where
  name : String
  extension : String
  size : Nat
  attributes : Nat
  last_modification_datetime : DateTimeT
  content_type : ContentType

/-- `ListRequest` (`src/application/queries/ls.rs`). -/
structure ListRequest where
  filters : List FilterType
  sort : Option SortType

/-- `DeleteRequest` (`src/application/commands/del.rs`). -/
structure DeleteRequest where
  file_name : String
  file_extension : String

/-- `CatRequest` (`src/application/queries/cat.rs`). -/
structure CatRequest where
  file_name : String
  file_extension : String

/-- `MakeDirectoryRequest` (`src/application/commands/mkdir.rs`). -/
structure MakeDirectoryRequest where
  name : String
  attributes : Nat
  last_modification_datetime : DateTimeT

/-- `ChangeDirectoryRequest` (`src/application/commands/cd.rs`). -/
structure ChangeDirectoryRequest where
  directory_name : String

/-- The engine state (`DiskManager` in `src/infrastructure/disk_manager.rs`).
`storageFile` models the content of the external storage file. -/
structure DiskManager where
  fat : List FatValue
  root : List FileEntry
  working_directory : FileEntry
  boot_sector : BootSector
  storage_buffer : List (List Nat)
  storageFile : List Nat

/-- `DiskManager::new` (the config only carries the storage path, which the
model does not need; the external file starts empty). -/
def DiskManager.new (boot_sector : BootSector) : DiskManager :=
  let fat_clusters := boot_sector.fat_cell_size * boot_sector.cluster_count / boot_sector.cluster_size
  let root_clusters := boot_sector.root_entry_cell_size * boot_sector.root_entry_count / boot_sector.cluster_size
  let fat := List.replicate boot_sector.cluster_count FatValue.Free
  let reserved := boot_sector.clusters_per_boot_sector + fat_clusters + root_clusters
  let fat := (List.range reserved).foldl (fun f i => f.set i .Reserved) fat
  let root := List.replicate boot_sector.root_entry_count FileEntry.defaultEntry
  let storage_buffer :=
    List.replicate boot_sector.cluster_count (List.replicate boot_sector.cluster_size 0)
  { fat, root, working_directory := FileEntry.root, boot_sector, storage_buffer,
    storageFile := [] }

/-- Result of a mutating engine operation: the Rust `Void = Result<(), _>` plus
the final state of `self`; `none` models a panic or a diverging loop. -/
abbrev OpResult := Option (Except String Unit × DiskManager)

/-- Ceiling division, modeling `(a as f64 / b as f64).ceil() as usize` (exact
for `0 < b` and the `u32`-sized values the engine passes). -/
def ceilDiv (a b : Nat) : Nat := (a + b - 1) / b

/-- Count of `Free` FAT cells, `fat.iter().filter(|v| v == Free).count()`. -/
def countFree (fat : List FatValue) : Nat :=
  (fat.filter (fun v => v == FatValue.Free)).length

/-- Search step of `get_next_free_cluster_index_gt`: first index `i > current`
with `fat[i] = Free`. -/
def findFreeFrom (current : Nat) : List FatValue → Nat → Option Nat
  | [], _ => none
  | v :: rest, i =>
    if v = FatValue.Free ∧ current < i then some i else findFreeFrom current rest (i + 1)

/-- `DiskManager::get_next_free_cluster_index_gt`. -/
def get_next_free_cluster_index_gt (fat : List FatValue) (current_cluster_index : Nat) : Option Nat :=
  findFreeFrom current_cluster_index fat 0

/-- Loop of `DiskManager::free_clusters`: from `idx`, repeatedly read the cell,
set it to `Free` and move to the cell's numeric value, stopping after freeing an
`EndOfChain` cell.  `none` models an out-of-range index (Rust panic) or fuel
exhaustion.  The fuel passed by `free_clusters` dominates every terminating run:
each step either frees a cell that was not `Free` (at most `fat.length` such
steps) or reads a `Free` cell and moves to index 0, where the loop terminates,
frees, or repeats the same configuration forever — so exhaustion means the Rust
loop diverges. -/
def freeClustersGo : Nat → List FatValue → Nat → Option (List FatValue)
  | 0, _, _ => none
  | fuel + 1, fat, idx =>
    match fat.get? idx with
    | none => none
    | some FatValue.EndOfChain => some (fat.set idx .Free)
    | some v => freeClustersGo fuel (fat.set idx .Free) v.toU16

/-- `DiskManager::free_clusters` (the storage buffer is left unchanged). -/
def DiskManager.free_clusters (s : DiskManager) (file_entry : FileEntry) : Option DiskManager :=
  match freeClustersGo (2 * s.fat.length + 8) s.fat file_entry.first_cluster with
  | none => none
  | some fat => some { s with fat }

/-- `DiskManager::free_file_entry`; `none` models the `unwrap` panic on a
working directory without a child list. -/
def DiskManager.free_file_entry (s : DiskManager) (file_entry : FileEntry) : Option DiskManager :=
  if s.working_directory.is_root then
    match s.root.findIdx? (fun entry =>
        entry.name == file_entry.name && entry.extension == file_entry.extension) with
    | some i => some { s with root := s.root.set i FileEntry.defaultEntry }
    | none => some s
  else
    match s.working_directory.children_entries with
    | none => none
    | some children =>
      some { s with working_directory := s.working_directory.withChildren (some
        (children.filter (fun entry =>
          !(entry.name == file_entry.name && entry.extension == file_entry.extension)))) }

/-- `DiskManager::serialize_directory_root_table`; `none` models the `unwrap`
panic on a missing child list. -/
def serialize_directory_root_table (directory : FileEntry) : Option (List Nat) :=
  match directory.children_entries with
  | none => none
  | some children => some (List.flatten (children.map FileEntry.intoBytes))

/-- Loop of `sync_directory_root_table_to_storage`: write `data` into the chain
starting at `cur`, linking each written cluster to the next free one (or
`EndOfChain` on the last chunk).  Fuel: with `cluster_size > 0` every iteration
drains at least one byte, and with `cluster_size = 0` the successor indices
strictly increase until the `unwrap` panics, so `data.length + fat.length + 8`
dominates every run. -/
def syncDirGo : Nat → DiskManager → Nat → List Nat → Option DiskManager
  | 0, _, _, _ => none
  | fuel + 1, s, cur, data =>
    if data.isEmpty then some s
    else
      let cs := s.boot_sector.cluster_size
      if data.length < cs then none
      else
        let cluster_data := data.take cs
        let data := data.drop cs
        if cur < s.storage_buffer.length then
          let s := { s with storage_buffer := s.storage_buffer.set cur cluster_data }
          match get_next_free_cluster_index_gt s.fat cur with
          | none => none
          | some next =>
            let fatv := if data.isEmpty then FatValue.EndOfChain
                        else FatValue.ofU16 (next % 65536)
            if cur < s.fat.length then
              syncDirGo fuel { s with fat := s.fat.set cur fatv } next data
            else none
        else none

/-- `DiskManager::sync_directory_root_table_to_storage`. -/
def DiskManager.sync_directory_root_table_to_storage (s : DiskManager) (dir_entry : FileEntry) :
    Option DiskManager :=
  match s.free_clusters dir_entry with
  | none => none
  | some s =>
    match serialize_directory_root_table dir_entry with
    | none => none
    | some directory_data =>
      syncDirGo (directory_data.length + s.fat.length + 8) s dir_entry.first_cluster directory_data

/-- Loop of `DiskManager::write_data_to_disk`.  Fuel: with `cluster_size > 0`
the remaining size strictly decreases each iteration, so `remaining + 2`
dominates every terminating run; with `cluster_size = 0` the Rust loop
diverges, which exhaustion models. -/
def writeDataGo : Nat → DiskManager → FileEntry → List Nat → Nat → Nat → OpResult
  | 0, _, _, _, _, _ => none
  | fuel + 1, s, file_entry, file_data, cur, remaining =>
    if remaining = 0 then some (.ok (), s)
    else
      match get_next_free_cluster_index_gt s.fat cur with
      | some next =>
        if cur < s.fat.length then
          let s := { s with fat := s.fat.set cur (FatValue.Data (next % 65536)) }
          let cs := s.boot_sector.cluster_size
          let chunk := min cs remaining
          if file_data.length < chunk then none
          else if cur < s.storage_buffer.length then
            let s := { s with storage_buffer := s.storage_buffer.set cur (file_data.take chunk) }
            let file_data := file_data.drop chunk
            if remaining > cs then
              writeDataGo fuel s file_entry file_data next (remaining - cs)
            else
              let row := (s.storage_buffer.getD cur []) ++
                List.replicate (cs - min cs remaining) 0
              let s := { s with storage_buffer := s.storage_buffer.set cur row }
              some (.ok (), { s with fat := s.fat.set cur FatValue.EndOfChain })
          else none
        else none
      | none =>
        if cur < s.fat.length then
          let s := { s with fat := s.fat.set cur FatValue.EndOfChain }
          match s.free_clusters file_entry with
          | none => none
          | some s =>
            match s.free_file_entry file_entry with
            | none => none
            | some s =>
              match s.sync_directory_root_table_to_storage s.working_directory with
              | none => none
              | some s => some (.error "No space in fat", s)
        else none

/-- `DiskManager::write_data_to_disk` (the remaining size is the `u16` cast of
the entry's `u32` size). -/
def DiskManager.write_data_to_disk (s : DiskManager) (file_entry : FileEntry)
    (file_data : List Nat) : OpResult :=
  writeDataGo (file_entry.size % 65536 + 2) s file_entry file_data
    file_entry.first_cluster (file_entry.size % 65536)

/-- Pure FAT chain walk to the cluster holding `EndOfChain`
(`while fat[cur] != EndOfChain { cur = fat[cur] }`).  Fuel `fat.length + 1` is
exact by pigeonhole: the walk does not modify the FAT, so a run of more than
`fat.length` in-range steps revisits an index and diverges. -/
def walkToLast : Nat → List FatValue → Nat → Option Nat
  | 0, _, _ => none
  | fuel + 1, fat, cur =>
    match fat.get? cur with
    | none => none
    | some FatValue.EndOfChain => some cur
    | some v => walkToLast fuel fat v.toU16

/-- Write loop of `append_to_root_table_of_working_dir` (non-root branch).
Fuel argument as for `syncDirGo`. -/
def appendWriteGo : Nat → DiskManager → Nat → Nat → List Nat → Option (DiskManager × Nat)
  | 0, _, _, _, _ => none
  | fuel + 1, s, current, next, data =>
    if data.isEmpty then some (s, current)
    else
      let cs := s.boot_sector.cluster_size
      if data.length < cs then none
      else
        let cluster_data := data.take cs
        let data := data.drop cs
        if next < s.storage_buffer.length then
          let s := { s with storage_buffer := s.storage_buffer.set next cluster_data }
          let current := next % 65536
          match get_next_free_cluster_index_gt s.fat current with
          | none => none
          | some next' =>
            if current < s.fat.length then
              appendWriteGo fuel { s with fat := s.fat.set current (FatValue.ofU16 (next' % 65536)) }
                current next' data
            else none
        else none

/-- `DiskManager::get_root_table_for_working_directory`; `none` models the
`unwrap` panic on a working directory without a child list. -/
def DiskManager.get_root_table_for_working_directory (s : DiskManager) : Option (List FileEntry) :=
  if s.working_directory.is_root then some s.root
  else s.working_directory.children_entries

/-- `DiskManager::append_to_root_table_of_working_dir`. -/
def DiskManager.append_to_root_table_of_working_dir (s : DiskManager) (file_entry : FileEntry) :
    OpResult :=
  if s.working_directory.is_root then
    match s.root.findIdx? (fun e => e.name == "") with
    | some i => some (.ok (), { s with root := s.root.set i file_entry })
    | none => some (.error "No space left in the root folder", s)
  else
    match s.working_directory.children_entries with
    | none => none
    | some children =>
      let s := { s with working_directory :=
        s.working_directory.withChildren (some (children ++ [file_entry])) }
      match walkToLast (s.fat.length + 1) s.fat s.working_directory.first_cluster with
      | none => none
      | some current =>
        let file_entry_data := file_entry.intoBytes
        match get_next_free_cluster_index_gt s.fat 0 with
        | none => none
        | some next =>
          if current < s.fat.length then
            let s := { s with fat := s.fat.set current (FatValue.ofU16 (next % 65536)) }
            match appendWriteGo (file_entry_data.length + s.fat.length + 8) s current next
                file_entry_data with
            | none => none
            | some (s, current) =>
              if current < s.fat.length then
                some (.ok (), { s with fat := s.fat.set current FatValue.EndOfChain })
              else none
          else none

/-- `IDiskManager::create_file` for `DiskManager`
(`src/infrastructure/i_disk_manager_impl.rs`). -/
def DiskManager.create_file (s : DiskManager) (request : CreateRequest) : OpResult :=
  match s.get_root_table_for_working_directory with
  | none => none
  | some table =>
    if table.any (fun e => e.name == request.name && e.extension == request.extension) then
      some (.error ("File " ++ request.name ++ "." ++ request.extension ++ " already exists"), s)
    else if s.working_directory.is_root && s.root.all (fun e => !(e.name == "")) then
      some (.error "No space in root", s)
    else
      let required_clusters := ceilDiv request.size s.boot_sector.cluster_size
      if countFree s.fat < required_clusters then
        some (.error "No space in fat", s)
      else
        match get_next_free_cluster_index_gt s.fat 0 with
        | none => none
        | some first_cluster =>
          let file_entry := FileEntry.mk request.name request.extension request.size
            (first_cluster % 65536) request.attributes request.last_modification_datetime
            (some s.working_directory) none
          let file_data := ContentGenerator.generate request.content_type request.size
          match s.write_data_to_disk file_entry file_data with
          | none => none
          | some (.error e, s) => some (.error e, s)
          | some (.ok _, s) => s.append_to_root_table_of_working_dir file_entry

/-- `IDiskManager::make_directory` for `DiskManager`. -/
def DiskManager.make_directory (s : DiskManager) (request : MakeDirectoryRequest) : OpResult :=
  match s.get_root_table_for_working_directory with
  | none => none
  | some table =>
    if table.any (fun e => e.name == request.name && !e.is_file) then
      some (.error ("Directory " ++ request.name ++ " already exists"), s)
    else if countFree s.fat == 0 then
      some (.error "Not enough space in FAT", s)
    else
      match s.fat.findIdx? (fun v => v == FatValue.Free) with
      | none => none
      | some first_cluster_index =>
        let dir_file_entry := FileEntry.mk request.name "" (s.boot_sector.root_entry_cell_size * 2)
          (first_cluster_index % 65536) request.attributes request.last_modification_datetime
          (some s.working_directory) (some [])
        let dot_dir_entry := (dir_file_entry.withName ".").withAttributes
          (FileEntryAttributes.combine [.Directory, .ReadOnly, .Hidden])
        let double_dot_dir_entry := ((s.working_directory.withName "..").withExtension "").withAttributes
          (FileEntryAttributes.combine [.Directory, .ReadOnly, .Hidden])
        let dir_file_entry := dir_file_entry.withChildren (some [dot_dir_entry, double_dot_dir_entry])
        match serialize_directory_root_table dir_file_entry with
        | none => none
        | some dir_data =>
          match s.write_data_to_disk dir_file_entry dir_data with
          | none => none
          | some (.error e, s) => some (.error e, s)
          | some (.ok _, s) => s.append_to_root_table_of_working_dir dir_file_entry

/-- Names of the entries from the working directory up to the root
(the `while let Some(parent)` walk of `get_path_from_root_to_entry`, before the
final `reverse`). -/
def FileEntry.upNames : FileEntry → List String
  | .mk n _ _ _ _ _ p _ => n :: (match p with | none => [] | some pe => pe.upNames)

/-- `DiskManager::get_path_from_root_to_entry`. -/
def get_path_from_root_to_entry (entry : FileEntry) : List String :=
  entry.upNames.reverse

/-- Descent loop of `sync_working_directory_from_root`; `none` models the
`unwrap` panics. -/
def descendPath : FileEntry → List String → Option FileEntry
  | current, [] => some current
  | current, part :: rest =>
    match current.children_entries with
    | none => none
    | some children =>
      match children.find? (fun e => e.name == part) with
      | none => none
      | some next => descendPath next rest

/-- `DiskManager::sync_working_directory_from_root`. -/
def DiskManager.sync_working_directory_from_root (s : DiskManager) : Option DiskManager :=
  let path := get_path_from_root_to_entry s.working_directory
  match path.get? 1 with
  | none => none
  | some name1 =>
    match s.root.find? (fun e => e.name == name1) with
    | none => none
    | some first =>
      match descendPath first (path.drop 2) with
      | none => none
      | some current => some { s with working_directory := current }

/-- `IDiskManager::get_working_directory_full_path` (`pwd`). -/
def DiskManager.get_working_directory_full_path (s : DiskManager) : String :=
  let dirs := s.working_directory.upNames
  let dirs := if !s.working_directory.is_root then dirs.dropLast ++ [""] else dirs
  String.intercalate "/" dirs.reverse

/-- Per-token filter semantics of `list_files` (the catch-all arm covers
`AllAndHidden`, `InShortFormat` and `InLongFormat`). -/
def matchesFilter (e : FileEntry) : FilterType → Bool
  | .Name n => e.name == n
  | .Extension x => e.extension == x
  | .Files => e.is_file
  | .Directories => !e.is_file
  | .All => !e.is_hidden
  | _ => true

/-- Stable insertion of one element, placing `x` before the first `y` it does
not compare greater than. -/
def insertSorted (le : FileEntry → FileEntry → Bool) (x : FileEntry) :
    List FileEntry → List FileEntry
  | [] => [x]
  | y :: ys => if le x y then x :: y :: ys else y :: insertSorted le x ys

/-- Stable sort modeling `Vec::sort_by` (a stable sort's output is uniquely
determined by the comparator, so insertion sort is an exact model). -/
def sortByStable (le : FileEntry → FileEntry → Bool) (l : List FileEntry) : List FileEntry :=
  l.foldr (insertSorted le) []

/-- Chronological comparison of `DateTime<Utc>` values. -/
def DateTimeT.cmp (a b : DateTimeT) : Ordering :=
  (compare a.year b.year).then ((compare a.month b.month).then ((compare a.day b.day).then
    ((compare a.hour b.hour).then ((compare a.minute b.minute).then
      (compare a.second b.second)))))

/-- The sort dispatch of `list_files` (`String` comparison is byte order for
the ASCII names the engine stores). -/
def sortEntries (sort : SortType) (l : List FileEntry) : List FileEntry :=
  match sort with
  | .NameAsc => sortByStable (fun a b => compare a.name b.name != Ordering.gt) l
  | .NameDesc => sortByStable (fun a b => compare b.name a.name != Ordering.gt) l
  | .DateAsc => sortByStable (fun a b =>
      DateTimeT.cmp a.last_modification_datetime b.last_modification_datetime != Ordering.gt) l
  | .DateDesc => sortByStable (fun a b =>
      DateTimeT.cmp b.last_modification_datetime a.last_modification_datetime != Ordering.gt) l
  | .SizeAsc => sortByStable (fun a b => compare a.size b.size != Ordering.gt) l
  | .SizeDesc => sortByStable (fun a b => compare b.size a.size != Ordering.gt) l

/-- `IDiskManager::list_files` for `DiskManager`. -/
def DiskManager.list_files (s : DiskManager) (request : ListRequest) : Option (List FileEntry) :=
  match s.get_root_table_for_working_directory with
  | none => none
  | some table =>
    let file_entries := table.filter (fun e => !(e.name == ""))
    let file_entries :=
      if !request.filters.isEmpty then
        file_entries.filter (fun e => request.filters.all (fun f => matchesFilter e f))
      else
        file_entries.filter (fun e => !e.is_hidden)
    match request.sort with
    | some sort => some (sortEntries sort file_entries)
    | none => some file_entries

/-- Chain walk of `get_file_content`, concatenating a full cluster per visited
cell until the cell holding `EndOfChain`, whose index is returned.  Fuel
`fat.length + 1` is exact by pigeonhole (the walk is read-only). -/
def catWalk : Nat → List FatValue → List (List Nat) → Nat → Nat → Option (List Nat × Nat)
  | 0, _, _, _, _ => none
  | fuel + 1, fat, storage, cs, cur =>
    match fat.get? cur with
    | none => none
    | some FatValue.EndOfChain => some ([], cur)
    | some v =>
      match storage.get? cur with
      | none => none
      | some row =>
        if row.length < cs then none
        else
          match catWalk fuel fat storage cs v.toU16 with
          | none => none
          | some (rest, last) => some (row.take cs ++ rest, last)

/-- `IDiskManager::get_file_content` (`cat`), returning the byte sequence the
source passes through `String::from_utf8_lossy` (identical for ASCII content). -/
def DiskManager.get_file_content (s : DiskManager) (request : CatRequest) :
    Option (Except String (List Nat)) :=
  match s.get_root_table_for_working_directory with
  | none => none
  | some table =>
    let p := fun (e : FileEntry) =>
      e.name == request.file_name && e.extension == request.file_extension && e.is_file
    if !(table.any p) then
      some (.error ("File " ++ request.file_name ++ "." ++ request.file_extension ++
        " does not exist"))
    else
      match table.find? p with
      | none => none
      | some file_entry =>
        let cs := s.boot_sector.cluster_size
        match catWalk (s.fat.length + 1) s.fat s.storage_buffer cs file_entry.first_cluster with
        | none => none
        | some (content, cur) =>
          if cs = 0 then none
          else
            let remaining := file_entry.size % cs
            let remaining := if file_entry.size != 0 && remaining == 0 then remaining + cs
                             else remaining
            match s.storage_buffer.get? cur with
            | none => none
            | some row =>
              if row.length < remaining then none
              else some (.ok (content ++ row.take remaining))

/-- Resize of a byte vector (`Vec::resize`), padding with `v` or truncating. -/
def listResize (l : List Nat) (n : Nat) (v : Nat) : List Nat :=
  if l.length ≤ n then l ++ List.replicate (n - l.length) v else l.take n

/-- Fill a run of clusters from a byte stream, draining exactly each cluster's
length (`ByteArray::drain` + `copy_from_slice` in `sync_to_buffer`, and the
`read_exact` loop of `sync_from_file`); `none` models the panic when the
stream is too short. -/
def drainRegion : List (List Nat) → List Nat → Option (List (List Nat))
  | [], _ => some []
  | c :: cl, data =>
    if data.length < c.length then none
    else
      match drainRegion cl (data.drop c.length) with
      | none => none
      | some r => some (data.take c.length :: r)

/-- Write one FAT cell as two big-endian bytes into one
`chunks_mut(fat_cell_size)` slice of a cluster; `none` models the index panic
on a slice shorter than 2. -/
def writeFatCell (bytes : List Nat) (value : Nat) : Option (List Nat) :=
  if bytes.length < 2 then none
  else some ((bytes.set 0 ((value &&& 0xFF00) >>> 8)).set 1 (value &&& 0x00FF))

/-- Zip of one FAT chunk's cells with one cluster's byte chunks
(`fat_chunk.iter().zip(cluster.chunks_mut(fat_cell_size))`). -/
def writeFatChunks : List FatValue → List (List Nat) → Option (List (List Nat))
  | [], rest => some rest
  | _ :: _, [] => some []
  | c :: cells, b :: bs =>
    match writeFatCell b c.toU16 with
    | none => none
    | some b' =>
      match writeFatChunks cells bs with
      | none => none
      | some r => some (b' :: r)

/-- Write one FAT chunk into one storage cluster. -/
def writeFatCluster (fcs : Nat) (cluster : List Nat) (cells : List FatValue) : Option (List Nat) :=
  match writeFatChunks cells (listChunks fcs cluster) with
  | none => none
  | some chunks => some chunks.flatten

/-- Pairwise region update, zipping clusters with items and leaving trailing
clusters unchanged (the `zip` semantics of `sync_to_buffer`). -/
def zipWriteRegion (f : List Nat → β → Option (List Nat)) :
    List (List Nat) → List β → Option (List (List Nat))
  | clusters, [] => some clusters
  | [], _ => some []
  | c :: cl, b :: bs =>
    match f c b with
    | none => none
    | some c' =>
      match zipWriteRegion f cl bs with
      | none => none
      | some r => some (c' :: r)

/-- Write one root entry's 32-byte record across one `chunks_mut` group of
root-region clusters (first cluster, then the second when bytes remain);
`none` models the index panics. -/
def writeRootEntry (chunkClusters : List (List Nat)) (e : FileEntry) :
    Option (List (List Nat)) :=
  match chunkClusters with
  | [] => none
  | c0 :: rest =>
    let data := e.intoBytes
    if data.length < c0.length then none
    else
      let c0' := data.take c0.length
      let data := data.drop c0.length
      if data.isEmpty then some (c0' :: rest)
      else
        match rest with
        | [] => none
        | c1 :: rest2 =>
          if data.length < c1.length then none
          else some (c0' :: data.take c1.length :: rest2)

/-- Zip of root entries with the chunked root-region clusters. -/
def writeRootChunks : List FileEntry → List (List (List Nat)) → Option (List (List (List Nat)))
  | [], rest => some rest
  | _ :: _, [] => some []
  | e :: es, ch :: chs =>
    match writeRootEntry ch e with
    | none => none
    | some ch' =>
      match writeRootChunks es chs with
      | none => none
      | some r => some (ch' :: r)

/-- `DiskManager::sync_to_buffer`: serialize boot sector, FAT and root table
into the storage buffer (the data region is untouched). -/
def DiskManager.sync_to_buffer (s : DiskManager) : Option DiskManager :=
  let bs := s.boot_sector
  let boot_sector_clusters := bs.clusters_per_boot_sector
  let boot_sector_data := bs.intoBytes
  match drainRegion (s.storage_buffer.take boot_sector_clusters) boot_sector_data with
  | none => none
  | some bootRows =>
    let storage := bootRows ++ s.storage_buffer.drop boot_sector_clusters
    if bs.cluster_size = 0 ∨ bs.fat_cell_size = 0 then none
    else
      let fat_clusters := bs.fat_cell_size * s.fat.length / bs.cluster_size
      let fat_cells_per_cluster := bs.cluster_size / bs.fat_cell_size
      if fat_cells_per_cluster = 0 then none
      else
        let fatRegion := (storage.drop boot_sector_clusters).take fat_clusters
        match zipWriteRegion (writeFatCluster bs.fat_cell_size) fatRegion
            (listChunks fat_cells_per_cluster s.fat) with
        | none => none
        | some fatRows =>
          let storage := storage.take boot_sector_clusters ++ fatRows ++
            storage.drop (boot_sector_clusters + fat_clusters)
          let root_clusters := bs.root_entry_cell_size * s.root.length / bs.cluster_size
          let clusters_per_root_entry := bs.root_entry_cell_size / bs.cluster_size
          if clusters_per_root_entry = 0 then none
          else
            let rootRegion := (storage.drop (boot_sector_clusters + fat_clusters)).take root_clusters
            match writeRootChunks s.root (listChunks clusters_per_root_entry rootRegion) with
            | none => none
            | some rootChunks =>
              let storage := storage.take (boot_sector_clusters + fat_clusters) ++
                rootChunks.flatten ++
                storage.drop (boot_sector_clusters + fat_clusters + root_clusters)
              some { s with storage_buffer := storage }

/-- `DiskManager::sync_to_file` (`push_sync`): flush the in-memory structures
to the buffer, then overwrite the storage file with the buffer bytes. -/
def DiskManager.sync_to_file (s : DiskManager) : Option DiskManager :=
  match s.sync_to_buffer with
  | none => none
  | some s => some { s with storageFile := s.storage_buffer.flatten }

/-- `IDiskManager::push_sync`. -/
def DiskManager.push_sync (s : DiskManager) : Option DiskManager :=
  s.sync_to_file

/-- `DiskManager::sync_from_file`: refill every buffer cluster from the storage
file (`read_exact` per cluster); `none` models a short file. -/
def DiskManager.sync_from_file (s : DiskManager) : Option DiskManager :=
  match drainRegion s.storage_buffer s.storageFile with
  | none => none
  | some rows => some { s with storage_buffer := rows }

/-- Decode the cells of one FAT chunk from one cluster's byte chunks
(`cluster.chunks(fat_cell_size).zip(fat_chunk)`), replacing the zipped prefix. -/
def decodeFatCells : List (List Nat) → List FatValue → Option (List FatValue)
  | _, [] => some []
  | [], chunk => some chunk
  | b :: bs, _ :: cells =>
    if b.length < 2 then none
    else
      match decodeFatCells bs cells with
      | none => none
      | some r => some (FatValue.ofU16 ((byteAt b 0 <<< 8) ||| byteAt b 1) :: r)

/-- Per-cluster FAT decode of `sync_from_buffer`; chunks beyond the available
clusters stay unchanged, clusters beyond the chunks write nothing
(`chunks_mut(..).nth(i).unwrap_or_default()`). -/
def decodeFatGo (fcs : Nat) : List (List Nat) → List (List FatValue) → Option (List (List FatValue))
  | [], chunks => some chunks
  | _ :: _, [] => some []
  | cluster :: cls, chunk :: chunks =>
    match decodeFatCells (listChunks fcs cluster) chunk with
    | none => none
    | some chunk' =>
      match decodeFatGo fcs cls chunks with
      | none => none
      | some r => some (chunk' :: r)

mutual

/-- Loop of `link_root_table_to_directory` (one iteration per directory record;
the loop index is compared against `EndOfChain` through `FatValue::from`).
Nested directories recurse through the shared fuel, so `none` means fuel
exhaustion or one of the modeled panics. -/
def linkLoop : Nat → DiskManager → FileEntry → Nat → List FileEntry →
    Option (DiskManager × List FileEntry)
  | 0, _, _, _, _ => none
  | fuel + 1, s, dir, cur, acc =>
    if FatValue.ofU16 cur == FatValue.EndOfChain then some (s, acc)
    else
      match s.storage_buffer.get? cur with
      | none => none
      | some row =>
        if s.boot_sector.cluster_size = 0 then none
        else
          let two := s.boot_sector.root_entry_cell_size / s.boot_sector.cluster_size != 1
          match (if two then
                   match s.fat.get? cur with
                   | none => none
                   | some v =>
                     match s.storage_buffer.get? v.toU16 with
                     | none => none
                     | some row2 => some (v.toU16, row ++ row2)
                 else some (cur, row)) with
          | none => none
          | some (cur2, file_entry_data) =>
            match FileEntry.fromBytes file_entry_data with
            | none => none
            | some fe =>
              let fe := fe.withParent (some dir)
              if fe.is_file || (!fe.is_file && (fe.name == "." || fe.name == "..")) then
                match s.fat.get? cur2 with
                | none => none
                | some v2 => linkLoop fuel s dir v2.toU16 (acc ++ [fe])
              else
                match link_root_table_to_directory fuel s fe with
                | none => none
                | some (s', fe') =>
                  match s'.fat.get? cur2 with
                  | none => none
                  | some v2 => linkLoop fuel s' dir v2.toU16 (acc ++ [fe'])

/-- `DiskManager::link_root_table_to_directory`: rebuild one directory's child
list from its cluster chain, recompute its size, and rewrite its chain. -/
def link_root_table_to_directory : Nat → DiskManager → FileEntry →
    Option (DiskManager × FileEntry)
  | 0, _, _ => none
  | fuel + 1, s, directory_entry =>
    match linkLoop fuel s directory_entry directory_entry.first_cluster [] with
    | none => none
    | some (s', root_table) =>
      let size_of_file_entries := (root_table.map FileEntry.size).sum
      let directory_entry := (directory_entry.withSize size_of_file_entries).withChildren
        (some root_table)
      match s'.sync_directory_root_table_to_storage directory_entry with
      | none => none
      | some s'' => some (s'', directory_entry)

end

/-- Decode one root-table chunk of `sync_from_buffer` (empty-slot check on the
first half of the first cluster, then record parse and, for directories, the
recursive link). -/
def decodeRootChunk (fuel : Nat) (s : DiskManager) (chunk : List (List Nat)) :
    Option (DiskManager × FileEntry) :=
  match chunk with
  | [] => none
  | c0 :: rest =>
    let half := s.boot_sector.root_entry_cell_size / 2
    let cluster_is_empty := (c0.take half).all (fun b => b == 0)
    if cluster_is_empty then some (s, FileEntry.defaultEntry)
    else
      let file_entry_data := c0 ++ (match rest with | [] => [] | c1 :: _ => c1)
      match FileEntry.fromBytes file_entry_data with
      | none => none
      | some fe =>
        let fe := fe.withParent (some FileEntry.root)
        if fe.is_file then some (s, fe)
        else link_root_table_to_directory fuel s fe

/-- Fold of `decodeRootChunk` over the chunked root region, threading the state
through the link mutations. -/
def decodeRootGo (fuel : Nat) : DiskManager → List (List (List Nat)) →
    Option (DiskManager × List FileEntry)
  | s, [] => some (s, [])
  | s, chunk :: chunks =>
    match decodeRootChunk fuel s chunk with
    | none => none
    | some (s', fe) =>
      match decodeRootGo fuel s' chunks with
      | none => none
      | some (s'', rest) => some (s'', fe :: rest)

/-- `DiskManager::sync_from_buffer` (`pull_sync` body): read the file, decode
boot sector, FAT and root table (rebuilding directory trees), write the
possibly-adjusted image back, and refresh the working directory. -/
def DiskManager.sync_from_buffer (fuel : Nat) (s : DiskManager) (only_boot_sector : Bool) :
    Option DiskManager :=
  match s.sync_from_file with
  | none => none
  | some s =>
    let boot_sector_clusters := s.boot_sector.clusters_per_boot_sector
    let boot_sector_data := (s.storage_buffer.take boot_sector_clusters).flatten
    match BootSector.fromBytes boot_sector_data with
    | none => none
    | some bs' =>
      let s := { s with boot_sector := bs' }
      if only_boot_sector then some s
      else
        if bs'.cluster_size = 0 ∨ bs'.fat_cell_size = 0 then none
        else
          let fat_clusters := bs'.fat_cell_size * s.fat.length / bs'.cluster_size
          let fat_cells_per_cluster := bs'.cluster_size / bs'.fat_cell_size
          if fat_cells_per_cluster = 0 then none
          else
            match decodeFatGo bs'.fat_cell_size
                ((s.storage_buffer.drop boot_sector_clusters).take fat_clusters)
                (listChunks fat_cells_per_cluster s.fat) with
            | none => none
            | some fatChunks =>
              let s := { s with fat := fatChunks.flatten }
              let clusters_per_root_entry := bs'.root_entry_cell_size / bs'.cluster_size
              if clusters_per_root_entry = 0 then none
              else
                let snapshot := s.storage_buffer.drop (boot_sector_clusters + fat_clusters)
                let chunks := (listChunks clusters_per_root_entry snapshot).take s.root.length
                match decodeRootGo fuel s chunks with
                | none => none
                | some (s, root_table) =>
                  let s := { s with root := root_table }
                  match s.sync_to_file with
                  | none => none
                  | some s =>
                    if s.working_directory.is_root then
                      some { s with working_directory :=
                        (s.working_directory.withParent none).withChildren (some s.root) }
                    else
                      s.sync_working_directory_from_root

/-- `IDiskManager::pull_sync`. -/
def DiskManager.pull_sync (fuel : Nat) (s : DiskManager) : Option DiskManager :=
  s.sync_from_buffer fuel false

mutual

/-- `IDiskManager::change_working_directory` for `DiskManager` (mutually
recursive with `change_working_directory_to_root` through the `cd /` case). -/
def DiskManager.change_working_directory : Nat → DiskManager → ChangeDirectoryRequest → OpResult
  | 0, _, _ => none
  | fuel + 1, s, request =>
    match s.get_root_table_for_working_directory with
    | none => none
    | some table =>
      if request.directory_name != "/" &&
         !(table.any (fun e => e.name == request.directory_name && !e.is_file)) then
        some (.error ("Directory " ++ request.directory_name ++ " does not exist"), s)
      else if request.directory_name == "/" then
        match DiskManager.change_working_directory_to_root fuel s with
        | none => none
        | some (.error e, s') => some (.error e, s')
        | some (.ok _, s') => some (.ok (), s')
      else if request.directory_name == "." then some (.ok (), s)
      else if request.directory_name == ".." then
        match s.working_directory.parent_entry with
        | none => none
        | some parent => some (.ok (), { s with working_directory := parent })
      else
        match table.find? (fun e => e.name == request.directory_name && !e.is_file) with
        | none => none
        | some fe => some (.ok (), { s with working_directory := fe })
  termination_by structural fuel => fuel

/-- `DiskManager::change_working_directory_to_root` (the root-ward loop
pull-syncs before every `cd ..`). -/
def DiskManager.change_working_directory_to_root : Nat → DiskManager → OpResult
  | 0, _ => none
  | fuel + 1, s =>
    if !s.working_directory.is_root then
      match s.pull_sync fuel with
      | none => none
      | some s' =>
        match DiskManager.change_working_directory fuel s' ⟨".."⟩ with
        | none => none
        | some (.error e, s'') => some (.error e, s'')
        | some (.ok _, s'') => DiskManager.change_working_directory_to_root fuel s''
    else some (.ok (), s)
  termination_by structural fuel => fuel

end

mutual

/-- `IDiskManager::delete_file` for `DiskManager` (note that the source has no
`is_read_only` check anywhere on this path). -/
def DiskManager.delete_file : Nat → DiskManager → DeleteRequest → OpResult
  | 0, _, _ => none
  | fuel + 1, s, request =>
    match s.get_root_table_for_working_directory with
    | none => none
    | some table =>
      let p := fun (e : FileEntry) =>
        e.name == request.file_name && e.extension == request.file_extension
      if !(table.any p) then
        let msg := if request.file_extension == "" then
            "Directory " ++ request.file_name ++ " does not exist"
          else
            "File " ++ request.file_name ++ "." ++ request.file_extension ++ " does not exist"
        some (.error msg, s)
      else
        match table.find? p with
        | none => none
        | some file_entry =>
          match ((if !file_entry.is_file then
                   match s.pull_sync fuel with
                   | none => none
                   | some s =>
                     match DiskManager.change_working_directory fuel s ⟨request.file_name⟩ with
                     | none => none
                     | some (.error e, s) => some (.error e, s)
                     | some (.ok _, s) =>
                       match s.get_root_table_for_working_directory with
                       | none => none
                       | some root_table =>
                         match deleteChildren fuel s root_table with
                         | none => none
                         | some (.error e, s) => some (.error e, s)
                         | some (.ok _, s) =>
                           match s.pull_sync fuel with
                           | none => none
                           | some s => DiskManager.change_working_directory fuel s ⟨".."⟩
                 else some (.ok (), s)) : OpResult) with
          | none => none
          | some (.error e, s) => some (.error e, s)
          | some (.ok _, s) =>
            match s.pull_sync fuel with
            | none => none
            | some s =>
              match s.free_clusters file_entry with
              | none => none
              | some s =>
                match s.free_file_entry file_entry with
                | none => none
                | some s =>
                  if !s.working_directory.is_root then
                    match s.sync_directory_root_table_to_storage s.working_directory with
                    | none => none
                    | some s => some (.ok (), s)
                  else some (.ok (), s)
  termination_by structural fuel => fuel

def deleteChildren : Nat → DiskManager → List FileEntry → OpResult
  | 0, _, _ => none
  | _ + 1, s, [] => some (.ok (), s)
  | fuel + 1, s, fe :: rest =>
    if fe.name == "." || fe.name == ".." then deleteChildren fuel s rest
    else
      match DiskManager.delete_file fuel s ⟨fe.name, fe.extension⟩ with
      | none => none
      | some (.error e, s) => some (.error e, s)
      | some (.ok _, s) => deleteChildren fuel s rest
  termination_by structural fuel => fuel

end

/-- Chain set of the spec's chain-uniqueness property: the clusters reachable
from a head cluster by following `Data` links, terminated at `EndOfChain`
(property vocabulary, not source code). -/
def specChainClusters (fat : List FatValue) : Nat → Nat → List Nat
  | 0, _ => []
  | fuel + 1, c =>
    c :: (match fat.getD c FatValue.EndOfChain with
          | FatValue.Data n => specChainClusters fat fuel n
          | _ => [])

/-!
Concrete fixtures.  `DiskManager::new` accepts any boot sector, so the
evaluations use two small geometries with cluster size 16 and a 4-slot root
table: 16 total clusters (1 boot + 2 FAT + 8 root reserved, data clusters
11–15) and 24 total clusters (1 boot + 3 FAT + 8 root reserved, data clusters
12–23).
-/

/-- A valid, even-second modification instant used by the fixtures. -/
def dt2023 : DateTimeT := ⟨2023, 5, 15, 10, 30, 40⟩

/-- 16-cluster geometry. -/
def bs16 : BootSector := ⟨16, 16, 32, 4, 2, 1⟩

/-- Freshly initialized 16-cluster image. -/
def fresh16 : DiskManager := DiskManager.new bs16

/-- 24-cluster geometry. -/
def bs24 : BootSector := ⟨16, 24, 32, 4, 2, 1⟩

/-- Freshly initialized 24-cluster image. -/
def fresh24 : DiskManager := DiskManager.new bs24

/-- Sequencing of two engine operations where the first must succeed (the `?`
chaining a caller performs); errors and modeled panics propagate. -/
def bindOk (r : OpResult) (f : DiskManager → OpResult) : OpResult :=
  match r with
  | some (.ok _, s) => f s
  | other => other

/-- Final state of a successful operation. -/
def stepOk (r : OpResult) : Option DiskManager :=
  match r with
  | some (.ok _, s) => some s
  | _ => none

/-- Outcome projection of an operation result. -/
def opOutcome (r : OpResult) : Option (Except String Unit) :=
  r.map (fun p => p.1)

/-- `create A.TXT` with size 0 (C1 failing input, first step). -/
def c1_reqA : CreateRequest := ⟨"A", "TXT", 0, 0x05, dt2023, .Alpha⟩

/-- `create B.TXT` with size 16 (C1 failing input, second step). -/
def c1_reqB : CreateRequest := ⟨"B", "TXT", 16, 0x05, dt2023, .Num⟩

/-- State after the two successful creates of the C1 failing input. -/
def c1_state : OpResult :=
  bindOk (fresh16.create_file c1_reqA) (fun s => s.create_file c1_reqB)

/-- `mkdir D` request used to set up a non-root working directory. -/
def mkD_req : MakeDirectoryRequest := ⟨"D", 0x00, dt2023⟩

/-- State of the 24-cluster image after `mkdir D; cd D` (working directory is
`D`, whose chain occupies clusters 12–15; clusters 16–23 are free). -/
def stateD : OpResult :=
  bindOk (fresh24.make_directory mkD_req)
    (fun s => DiskManager.change_working_directory 10 s ⟨"D"⟩)

/-- Create request that exhausts the free cells mid-chain inside `D`
(`ceil(128/16) = 8 =` free-cell count). -/
def c2_req : CreateRequest := ⟨"A", "TXT", 128, 0x05, dt2023, .Alpha⟩

/-- Result of the failing create inside `D`. -/
def c2_res : OpResult := bindOk stateD (fun s => s.create_file c2_req)

/-- Root-directory create request with free-cell count (5) equal to
`ceil(80/16)`, for the C2 root-rollback divergence. -/
def c2_root_req : CreateRequest := ⟨"A", "TXT", 80, 0x05, dt2023, .Alpha⟩

/-- Root-directory create request with free-cell count (5) equal to
`ceil(66/16)` (C9 counterexample). -/
def c9_req_exact : CreateRequest := ⟨"R", "TXT", 66, 0x05, dt2023, .Alpha⟩

/-- Non-root create request with free-cell count (8) equal to
`ceil(113/16)` (C9 amended, error case). -/
def c9_req_nonroot : CreateRequest := ⟨"N", "TXT", 113, 0x05, dt2023, .Alpha⟩

/-- Root-directory create request with one free cell beyond the chain
(`ceil(64/16) = 4 <` 5 free cells; C9 amended, success case). -/
def c9_req_success : CreateRequest := ⟨"S", "TXT", 64, 0x05, dt2023, .Alpha⟩

/-- Size-0 create request (C10). -/
def c10_req : CreateRequest := ⟨"X", "TXT", 0, 0x05, dt2023, .Alpha⟩

/-- Size-0 create inside the non-root directory `D` (C10 counterexample). -/
def c10_nonroot : OpResult := bindOk stateD (fun s => s.create_file c10_req)

/-- Size-0 create request at the root (C10 amended). -/
def c10_root_req : CreateRequest := ⟨"Z", "TXT", 0, 0x05, dt2023, .Alpha⟩

/-- Size-0 create at the root (C10 amended). -/
def c10_root : OpResult := fresh16.create_file c10_root_req

/-- Read-only file creation request (C4 failing input; attributes
`File | ReadOnly = 0x05`). -/
def c4_create : CreateRequest := ⟨"A", "TXT", 3, 0x05, dt2023, .Alpha⟩

/-- State holding the read-only file `A.TXT`, pushed to the storage file (as
the create handler does before the next operation pulls). -/
def c4_pushed : Option DiskManager :=
  (stepOk (fresh16.create_file c4_create)).bind DiskManager.push_sync

/-- Result of `del A.TXT` on the read-only file. -/
def c4_deleted : OpResult :=
  c4_pushed.bind (fun s => DiskManager.delete_file 100 s ⟨"A", "TXT"⟩)

/-- Working directory `D` directly under the root (C8 counterexample). -/
def c8_dir : FileEntry := FileEntry.mk "D" "" 64 12 0 dt2023 (some FileEntry.root) (some [])

/-- State whose working directory is `D` directly under the root. -/
def c8_state : DiskManager := { fresh16 with working_directory := c8_dir }

/-- Well-formed 2-cluster file used as the C5 witness: `M.TXT`, size 32, chain
`11 → 12 → EndOfChain`, ASCII content. -/
def c5_entry : FileEntry := FileEntry.mk "M" "TXT" 32 11 0x05 dt2023 none none

/-- C5 witness state. -/
def c5_state : DiskManager :=
  { fresh16 with
    fat := (fresh16.fat.set 11 (FatValue.Data 12)).set 12 FatValue.EndOfChain,
    root := fresh16.root.set 0 c5_entry,
    storage_buffer :=
      (fresh16.storage_buffer.set 11 ("ABCDEFGHIJKLMNOP".toList.map Char.toNat)).set 12
        ("QRSTUVWXYZABCDEF".toList.map Char.toNat) }

/-!
Checkpoint literals: the intermediate states of the fixture pipelines, written
out explicitly so that each pipeline step is certified by a single
step-evaluation lemma (`rfl`) against the literal.
-/

/-- An all-zero cluster row of the 16-byte geometries. -/
def zrow : List Nat := List.replicate 16 0

/-- FAT of a 16-cluster image holding one single-cluster chain at cluster 11. -/
def fat16one : List FatValue :=
  List.replicate 11 FatValue.Reserved ++ [FatValue.EndOfChain] ++ List.replicate 4 FatValue.Free

/-- Root entry of `A.TXT`, size 0, head cluster 11 (C1 first create). -/
def aEnt0 : FileEntry := FileEntry.mk "A" "TXT" 0 11 5 dt2023 (some FileEntry.root) none

/-- State after the size-0 create of `A.TXT` on `fresh16`. -/
def c1a_lit : DiskManager :=
  { fresh16 with
    root := [aEnt0, FileEntry.defaultEntry, FileEntry.defaultEntry, FileEntry.defaultEntry] }

/-- Root entry of `B.TXT`, size 16, head cluster 11 (C1 second create). -/
def bEnt : FileEntry := FileEntry.mk "B" "TXT" 16 11 5 dt2023 (some FileEntry.root) none

/-- State after both C1 creates: `A` and `B` share head cluster 11. -/
def c1b_lit : DiskManager :=
  { fresh16 with
    fat := fat16one,
    root := [aEnt0, bEnt, FileEntry.defaultEntry, FileEntry.defaultEntry],
    storage_buffer := List.replicate 11 zrow ++ ["0123456789012345".toList.map Char.toNat] ++
      List.replicate 4 zrow }

/-- The `.` pseudo-entry of directory `D` (clone of `D` before children are
attached, renamed, attributes `Directory|ReadOnly|Hidden = 0x03`). -/
def dotE : FileEntry := FileEntry.mk "." "" 64 12 3 dt2023 (some FileEntry.root) (some [])

/-- The `..` pseudo-entry of `D` (clone of the root working directory). -/
def ddE : FileEntry := FileEntry.mk ".." "" 0 0 3 utc_now none (some [])

/-- Directory entry `D`: size 64, chain head 12, children `.` and `..`. -/
def dirD : FileEntry := FileEntry.mk "D" "" 64 12 0 dt2023 (some FileEntry.root) (some [dotE, ddE])

/-- FAT of the 24-cluster image after `mkdir D` (chain 12 → 13 → 14 → 15). -/
def fatMk : List FatValue :=
  List.replicate 12 FatValue.Reserved ++
    [FatValue.Data 13, FatValue.Data 14, FatValue.Data 15, FatValue.EndOfChain] ++
    List.replicate 8 FatValue.Free

/-- Storage of the 24-cluster image after `mkdir D` (clusters 12–15 hold the
serialized `.` and `..` records). -/
def storMk : List (List Nat) :=
  List.replicate 12 zrow ++
    [(FileEntry.intoBytes dotE).take 16, (FileEntry.intoBytes dotE).drop 16,
     (FileEntry.intoBytes ddE).take 16, (FileEntry.intoBytes ddE).drop 16] ++
    List.replicate 8 zrow

/-- State after `mkdir D` on `fresh24`. -/
def stateMk : DiskManager :=
  { fat := fatMk,
    root := [dirD, FileEntry.defaultEntry, FileEntry.defaultEntry, FileEntry.defaultEntry],
    working_directory := FileEntry.root, boot_sector := bs24, storage_buffer := storMk,
    storageFile := [] }

/-- State after `mkdir D; cd D` on `fresh24`. -/
def stateD_lit : DiskManager := { stateMk with working_directory := dirD }

/-- The seven cluster rows of cyclic-alphabet payload a failing create writes
into clusters 16–22 before running out of free cells. -/
def alphaRows : List (List Nat) :=
  ["ABCDEFGHIJKLMNOP".toList.map Char.toNat, "QRSTUVWXYZABCDEF".toList.map Char.toNat,
   "GHIJKLMNOPQRSTUV".toList.map Char.toNat, "WXYZABCDEFGHIJKL".toList.map Char.toNat,
   "MNOPQRSTUVWXYZAB".toList.map Char.toNat, "CDEFGHIJKLMNOPQR".toList.map Char.toNat,
   "STUVWXYZABCDEFGH".toList.map Char.toNat]

/-- State after a mid-chain-failing create inside `D`: the FAT is restored to
its pre-create value, the entry is absent, but clusters 16–22 keep the
partially written payload. -/
def stateD_fail_lit : DiskManager :=
  { stateD_lit with
    storage_buffer := List.replicate 12 zrow ++
      [(FileEntry.intoBytes dotE).take 16, (FileEntry.intoBytes dotE).drop 16,
       (FileEntry.intoBytes ddE).take 16, (FileEntry.intoBytes ddE).drop 16] ++
      alphaRows ++ [zrow] }

/-- Root entry of `S.TXT`, size 64, head cluster 11 (C9 success case). -/
def sEnt : FileEntry := FileEntry.mk "S" "TXT" 64 11 5 dt2023 (some FileEntry.root) none

/-- State after the successful `create S.TXT 64` on `fresh16` (chain
11 → 12 → 13 → 14, one free cell beyond the chain was available). -/
def c9s_lit : DiskManager :=
  { fresh16 with
    fat := List.replicate 11 FatValue.Reserved ++
      [FatValue.Data 12, FatValue.Data 13, FatValue.Data 14, FatValue.EndOfChain, FatValue.Free],
    root := [sEnt, FileEntry.defaultEntry, FileEntry.defaultEntry, FileEntry.defaultEntry],
    storage_buffer := List.replicate 11 zrow ++ (alphaRows.take 4) ++ [zrow] }

/-- Root entry of the size-0 file `X.TXT` created inside `D` (head cluster 16,
parent `D`). -/
def xEnt : FileEntry := FileEntry.mk "X" "TXT" 0 16 5 dt2023 (some dirD) none

/-- Working directory `D` after `X` is appended to its child list. -/
def dirD_X : FileEntry :=
  FileEntry.mk "D" "" 64 12 0 dt2023 (some FileEntry.root) (some [dotE, ddE, xEnt])

/-- State after the size-0 create of `X.TXT` inside `D`: `X`'s record was
appended to `D`'s chain, claiming clusters 16 and 17 — `FAT[16]` is a `Data`
link of the parent's record chain, not `Free`. -/
def c10n_lit : DiskManager :=
  { stateD_lit with
    fat := List.replicate 12 FatValue.Reserved ++
      [FatValue.Data 13, FatValue.Data 14, FatValue.Data 15, FatValue.Data 16,
       FatValue.Data 17, FatValue.EndOfChain] ++ List.replicate 6 FatValue.Free,
    working_directory := dirD_X,
    storage_buffer := List.replicate 12 zrow ++
      [(FileEntry.intoBytes dotE).take 16, (FileEntry.intoBytes dotE).drop 16,
       (FileEntry.intoBytes ddE).take 16, (FileEntry.intoBytes ddE).drop 16,
       (FileEntry.intoBytes xEnt).take 16, (FileEntry.intoBytes xEnt).drop 16] ++
      List.replicate 6 zrow }

/-- Root entry of the size-0 file `Z.TXT` created at the root (head 11). -/
def zEnt : FileEntry := FileEntry.mk "Z" "TXT" 0 11 5 dt2023 (some FileEntry.root) none

/-- State after the size-0 create of `Z.TXT` on `fresh16`: only the root slot
changed; FAT and storage are untouched. -/
def c10r_lit : DiskManager :=
  { fresh16 with
    root := [zEnt, FileEntry.defaultEntry, FileEntry.defaultEntry, FileEntry.defaultEntry] }

/-- Root entry of the read-only file `A.TXT`, size 3, head 11 (C4). -/
def aEnt : FileEntry := FileEntry.mk "A" "TXT" 3 11 5 dt2023 (some FileEntry.root) none

/-- Cluster row holding `"ABC"` padded with zeroes. -/
def rowA : List Nat := "ABC".toList.map Char.toNat ++ List.replicate 13 0

/-- State after `create A.TXT 3` (read-only) on `fresh16`. -/
def c4a_lit : DiskManager :=
  { fresh16 with
    fat := fat16one,
    root := [aEnt, FileEntry.defaultEntry, FileEntry.defaultEntry, FileEntry.defaultEntry],
    storage_buffer := List.replicate 11 zrow ++ [rowA] ++ List.replicate 4 zrow }

/-- Big-endian byte row of eight `Reserved` FAT cells. -/
def fatRow1 : List Nat := [0, 1, 0, 1, 0, 1, 0, 1, 0, 1, 0, 1, 0, 1, 0, 1]

/-- Byte row of FAT cells 8–15 after the C4 create (`Reserved ×3`,
`EndOfChain`, `Free ×4`). -/
def fatRow2 : List Nat := [0, 1, 0, 1, 0, 1, 255, 255, 0, 0, 0, 0, 0, 0, 0, 0]

/-- Second half of a serialized default (empty) directory record: only the
packed epoch date bytes are non-zero. -/
def defRow2 : List Nat := [0, 0, 0, 0, 236, 33, 0, 0, 0, 0, 0, 0, 0, 0, 0, 0]

/-- Storage buffer after `push_sync` of the C4 state (boot sector, FAT and
root records serialized into clusters 0–10). -/
def c4p_storage : List (List Nat) :=
  [BootSector.intoBytes bs16, fatRow1, fatRow2,
   (FileEntry.intoBytes aEnt).take 16, (FileEntry.intoBytes aEnt).drop 16,
   zrow, defRow2, zrow, defRow2, zrow, defRow2,
   rowA, zrow, zrow, zrow, zrow]

/-- State after `push_sync`: the storage file mirrors the buffer. -/
def c4p_lit : DiskManager :=
  { c4a_lit with storage_buffer := c4p_storage, storageFile := c4p_storage.flatten }

/-- Length of the byte sequence a successful `cat` returns (C5's observable). -/
def catLength : Option (Except String (List Nat)) → Option Nat
  | some (.ok bytes) => some bytes.length
  | _ => none

/-- Whether an operation returned `Ok` (C9's observable: `false` covers both
an error return and a panic or diverging loop). -/
def opOk : OpResult → Bool
  | some (.ok _, _) => true
  | _ => false

/-- Well-formed chain as an explicit cluster list: consecutive `Data` links
ending in an `EndOfChain` cell (hypothesis vocabulary for C5). -/
def isChainList (fat : List FatValue) : List Nat → Bool
  | [] => false
  | [c] => fat.get? c == some FatValue.EndOfChain
  | c :: c2 :: rest => fat.get? c == some (FatValue.Data c2) && isChainList fat (c2 :: rest)

/-- Every listed cluster has a storage row of exactly one cluster size. -/
def rowsOk (s : DiskManager) (cl : List Nat) : Bool :=
  cl.all (fun c => ((s.storage_buffer.get? c).map List.length) == some s.boot_sector.cluster_size)

/-- Every listed cluster's row is ASCII; under this condition the byte-level
model of `String::from_utf8_lossy` is exact. -/
def asciiOk (s : DiskManager) (cl : List Nat) : Bool :=
  cl.all (fun c => (s.storage_buffer.getD c []).all (fun b => b < 128))

/-- Validity of a FAT cell per the on-disk encoding (C6): `Data` payloads lie
in `0x0003..=0xFFFE`. -/
def fatValid : FatValue → Bool
  | .Data n => 3 ≤ n && n ≤ 0xFFFE
  | _ => true

/-- Validity of a boot sector for the codec round-trip (C6): `u16` fields and
a cluster size of at least the 12 written header bytes. -/
def bootValid (b : BootSector) : Bool :=
  12 ≤ b.cluster_size && b.cluster_size < 65536 && b.cluster_count < 65536 &&
    b.root_entry_cell_size < 65536 && b.root_entry_count < 65536 &&
    b.fat_cell_size < 65536 && b.clusters_per_boot_sector < 65536

/-- Representable timestamp (C6): calendar-valid, year in the 7-bit window
from 1980, even second (2-second resolution). -/
def dtValid (dt : DateTimeT) : Bool :=
  dt.valid && 1980 ≤ dt.year && dt.year ≤ 2107 && dt.second % 2 == 0

/-- Valid directory record (C6): ASCII non-zero name of at most 8 bytes,
extension of at most 3, `u32` size, `u16` first cluster, `u8` attributes, and
a representable timestamp. -/
def entryValid (e : FileEntry) : Bool :=
  e.name.toList.length ≤ 8 && e.name.toList.all (fun c => 0 < c.toNat && c.toNat < 128) &&
    e.extension.toList.length ≤ 3 &&
    e.extension.toList.all (fun c => 0 < c.toNat && c.toNat < 128) &&
    e.size < 4294967296 && e.first_cluster < 65536 && e.attributes < 256 &&
    dtValid e.last_modification_datetime

/-!
Step-evaluation lemmas certifying the checkpoint literals, and the claim
theorems.
-/

/-- `create A.TXT 0` on the fresh 16-cluster image. -/
theorem c1_stepA : fresh16.create_file c1_reqA = some (.ok (), c1a_lit) := rfl

/-- `create B.TXT 16` on the previous state. -/
theorem c1_stepB : c1a_lit.create_file c1_reqB = some (.ok (), c1b_lit) := rfl

/-- Composition of the two C1 creates. -/
theorem c1_eval : c1_state = some (.ok (), c1b_lit) := by
  show bindOk (fresh16.create_file c1_reqA) _ = _
  rw [c1_stepA]
  exact c1_stepB

/-- `mkdir D` on the fresh 24-cluster image. -/
theorem mkD_eval : fresh24.make_directory mkD_req = some (.ok (), stateMk) := rfl

/-- `cd D` on the post-mkdir state. -/
theorem cdD_eval :
    DiskManager.change_working_directory 10 stateMk ⟨"D"⟩ = some (.ok (), stateD_lit) := rfl

/-- Composition `mkdir D; cd D`. -/
theorem stateD_eval : stateD = some (.ok (), stateD_lit) := by
  show bindOk (fresh24.make_directory mkD_req) _ = _
  rw [mkD_eval]
  exact cdD_eval

/-- The failing `create A.TXT 128` inside `D`. -/
theorem c2_create_eval :
    stateD_lit.create_file c2_req = some (.error "No space in fat", stateD_fail_lit) := rfl

/-- The failing `create N.TXT 113` inside `D` ends in the same state. -/
theorem c9_create_eval :
    stateD_lit.create_file c9_req_nonroot = some (.error "No space in fat", stateD_fail_lit) := rfl

/-- C1: evaluation of the code at the failing input.  On a fresh 16-cluster
image, `create A.TXT` (size 0) and then `create B.TXT` (size 16) both succeed,
both entries are non-empty with `first_cluster = 11`, and the sets of clusters
reachable from their `first_cluster` through `Data` links up to `EndOfChain`
are both `{11}` — their intersection is non-empty, so the claimed pairwise
disjointness of chains across entries fails after two successful public
operations on a freshly initialized image. -/
theorem c1_chain_uniqueness_violated :
    c1_state = some (.ok (), c1b_lit)
    ∧ (c1b_lit.root.map (fun e => (e.name, e.first_cluster))).take 2 = [("A", 11), ("B", 11)]
    ∧ (specChainClusters c1b_lit.fat (c1b_lit.fat.length + 1)
          ((c1b_lit.root.getD 0 FileEntry.defaultEntry).first_cluster)).inter
        (specChainClusters c1b_lit.fat (c1b_lit.fat.length + 1)
          ((c1b_lit.root.getD 1 FileEntry.defaultEntry).first_cluster)) = [11] := by
  exact ⟨c1_eval, rfl, rfl⟩

/-- C2 counterexample: the claim fails on the code in two ways.  Inside the
non-root directory `D` (free cells 16–23), `create A.TXT` of size 128 fails
mid-chain and returns the out-of-space error, but cluster 16 still holds the
partially written payload `"ABCDEFGHIJKLMNOP"` instead of zeroes — the claimed
zeroing of the visited clusters' bytes does not happen.  And at the root
working directory the same mid-chain failure (size 80 against 5 free cells)
never returns at all: the rollback calls `free_clusters` on the root
pseudo-entry (`first_cluster = 0`, `FAT[0] = Reserved`), whose walk cycles
between clusters 0 and 1 forever, so the out-of-space error is never
delivered. -/
theorem c2_rollback_counterexample :
    (c2_res = some (.error "No space in fat", stateD_fail_lit)
      ∧ stateD_fail_lit.storage_buffer.getD 16 [] = "ABCDEFGHIJKLMNOP".toList.map Char.toNat
      ∧ "ABCDEFGHIJKLMNOP".toList.map Char.toNat ≠ List.replicate 16 0)
    ∧ fresh16.create_file c2_root_req = none := by
  refine ⟨⟨?_, rfl, by decide⟩, rfl⟩
  show bindOk stateD _ = _
  rw [stateD_eval]
  exact c2_create_eval

/-- C4: evaluation of the code at the failing input.  `A.TXT` is read-only
(attribute bit 0 set), yet `delete_file` returns `Ok`, frees its cluster chain
(cluster 11 becomes `Free`) and clears its root slot — the source has no
read-only check on the delete path, contradicting the claim that deletion of
a read-only entry fails with a read-only error and leaves the state
unchanged. -/
theorem c4_delete_read_only_succeeds :
    c4_pushed = some c4p_lit
    ∧ (c4p_lit.root.getD 0 FileEntry.defaultEntry).is_read_only = true
    ∧ c4_deleted.map (fun p => (p.1, p.2.fat.getD 11 FatValue.Bad, p.2.root.map FileEntry.name))
        = some (.ok (), FatValue.Free, ["", "", "", ""]) := by
  have hpush : c4_pushed = some c4p_lit := by
    show ((stepOk (fresh16.create_file c4_create)).bind DiskManager.push_sync) = _
    rw [(rfl : fresh16.create_file c4_create = some (.ok (), c4a_lit))]
    exact (rfl : c4a_lit.push_sync = some c4p_lit)
  refine ⟨hpush, rfl, ?_⟩
  show (c4_pushed.bind (fun s => DiskManager.delete_file 100 s ⟨"A", "TXT"⟩)).map _ = _
  rw [hpush]
  rfl

/-- C9 counterexample: at the root working directory of a fresh 16-cluster
image the free-cell count (5) equals `ceil(66/16)`, so the space precondition
passes, and the final chunk's `find_free` fails as the claim says — but
`create R.TXT` does not fail with the out-of-space error: the rollback path's
chain-free walk on the root pseudo-entry never terminates, so the operation
never returns at all. -/
theorem c9_exact_fit_never_returns_at_root :
    countFree fresh16.fat = 5
    ∧ ceilDiv c9_req_exact.size fresh16.boot_sector.cluster_size = 5
    ∧ fresh16.create_file c9_req_exact = none := by
  exact ⟨rfl, rfl, rfl⟩

/-- C10 counterexample: in a non-root working directory the claim fails.
After `mkdir D; cd D` on the 24-cluster image, `create X.TXT` of size 0
succeeds and `X` gets `first_cluster = 16` (the lowest free index), but
appending `X`'s 32-byte record to `D`'s chain claims clusters 16 and 17, so
`FAT[16] = Data 17` — it does not remain `Free`. -/
theorem c10_nonroot_head_not_free :
    c10_nonroot = some (.ok (), c10n_lit)
    ∧ (c10n_lit.working_directory.children_entries.getD []).map
        (fun e => (e.name, e.first_cluster)) = [(".", 12), ("..", 0), ("X", 16)]
    ∧ c10n_lit.fat.getD 16 FatValue.Bad = FatValue.Data 17 := by
  refine ⟨?_, rfl, rfl⟩
  show bindOk stateD _ = _
  rw [stateD_eval]
  exact (rfl : stateD_lit.create_file c10_req = some (.ok (), c10n_lit))

/-- C7 counterexample: in the non-root directory `D` (children `.` and `..`),
`list_files` with the `AllAndHidden` filter returns both pseudo-entries — the
claim that no filter combination ever lists `.` or `..` is false (they are
excluded from listings only through their `Hidden` attribute). -/
theorem c7_all_and_hidden_lists_dots :
    ((stepOk stateD).bind (fun s => s.list_files ⟨[.AllAndHidden], none⟩)).map
        (List.map FileEntry.name) = some [".", ".."] := by
  rw [stateD_eval]
  rfl

/-- C8 counterexample: for working directory `D` directly under the root the
code renders `"/D"` — a leading slash and no trailing slash — not the claimed
`"/D/"`. -/
theorem c8_no_trailing_slash :
    c8_state.get_working_directory_full_path = "/D" ∧ ("/D" : String) ≠ "/D/" := by
  exact ⟨rfl, by decide⟩

/-- C3: `create_file` checks its three preconditions in the source's order and
each failure returns the corresponding error before any mutation — the state
handed back is exactly the input state: a duplicate `(name, extension)` in the
working directory yields the duplicate-entry error; otherwise, a full root
table (when the working directory is the root) yields the root-full error;
otherwise, a free-cell count below `ceil(size / cluster_size)` yields the
out-of-space error.  (`ceilDiv` models the `f64` ceiling for a positive
cluster size.) -/
theorem c3_preconditions_in_order (s : DiskManager) (r : CreateRequest) (table : List FileEntry)
    (htable : s.get_root_table_for_working_directory = some table) :
    (table.any (fun e => e.name == r.name && e.extension == r.extension) = true →
      s.create_file r
        = some (.error ("File " ++ r.name ++ "." ++ r.extension ++ " already exists"), s))
    ∧ (table.any (fun e => e.name == r.name && e.extension == r.extension) = false →
      (s.working_directory.is_root && s.root.all (fun e => !(e.name == ""))) = true →
      s.create_file r = some (.error "No space in root", s))
    ∧ (table.any (fun e => e.name == r.name && e.extension == r.extension) = false →
      (s.working_directory.is_root && s.root.all (fun e => !(e.name == ""))) = false →
      countFree s.fat < ceilDiv r.size s.boot_sector.cluster_size →
      s.create_file r = some (.error "No space in fat", s)) := by
  unfold DiskManager.create_file
  rw [htable]
  refine ⟨fun h1 => ?_, fun h1 h2 => ?_, fun h1 h2 h3 => ?_⟩
  · simp only [h1, if_true]
  · simp only [h1, h2, Bool.false_eq_true, if_false, if_true]
  · simp only [h1, h2, Bool.false_eq_true, if_false, if_pos h3]

/-- C3 witness: on the fresh 16-cluster image (5 free cells), creating a
100-byte file requires 7 clusters, so the out-of-space error is returned and
the state is unchanged. -/
theorem c3_witness :
    fresh16.create_file ⟨"W", "TXT", 100, 5, dt2023, .Alpha⟩
      = some (.error "No space in fat", fresh16) := by
  exact (c3_preconditions_in_order fresh16 ⟨"W", "TXT", 100, 5, dt2023, .Alpha⟩ fresh16.root
    rfl).2.2 (by decide) (by decide) (by decide)

/-- Membership in an insertion step comes from the inserted element or the
original list. -/
lemma mem_insertSorted {le : FileEntry → FileEntry → Bool} {x a : FileEntry}
    {l : List FileEntry} (h : a ∈ insertSorted le x l) : a = x ∨ a ∈ l := by
  induction l with
  | nil =>
    simp only [insertSorted, List.mem_singleton] at h
    exact Or.inl h
  | cons y ys ih =>
    simp only [insertSorted] at h
    split at h
    · rcases List.mem_cons.mp h with h | h
      · exact Or.inl h
      · exact Or.inr h
    · rcases List.mem_cons.mp h with h | h
      · exact Or.inr (by simp [h])
      · rcases ih h with h | h
        · exact Or.inl h
        · exact Or.inr (List.mem_cons_of_mem y h)

/-- The stable sort permutes its input: membership is preserved. -/
lemma mem_sortByStable {le : FileEntry → FileEntry → Bool} {a : FileEntry}
    {l : List FileEntry} (h : a ∈ sortByStable le l) : a ∈ l := by
  induction l with
  | nil => simp [sortByStable] at h
  | cons y ys ih =>
    simp only [sortByStable, List.foldr_cons] at h
    rcases mem_insertSorted h with h | h
    · simp [h]
    · exact List.mem_cons_of_mem y (ih (by simpa [sortByStable] using h))

/-- Every sort key of `list_files` preserves membership. -/
lemma mem_sortEntries {sort : SortType} {a : FileEntry} {l : List FileEntry}
    (h : a ∈ sortEntries sort l) : a ∈ l := by
  cases sort <;> exact mem_sortByStable h

/-- C7 amended: the `.` and `..` pseudo-entries are excluded from listings
only through their `Hidden` attribute.  Whenever every dot-named entry of the
working directory's table is hidden (as the pseudo-entries the engine creates
always are), a `list_files` call whose filter list is empty or contains the
`All` token — the hidden-excluding modes — returns, for every sort key, a
list with no entry named `.` or `..`.  (Filter combinations that admit hidden
entries, such as `AllAndHidden`, do list them, per the counterexample.) -/
theorem c7_dots_filtered_when_hidden (s : DiskManager) (req : ListRequest)
    (table l : List FileEntry)
    (htable : s.get_root_table_for_working_directory = some table)
    (hhid : ∀ x ∈ table, (x.name = "." ∨ x.name = "..") → x.is_hidden = true)
    (hfil : req.filters = [] ∨ FilterType.All ∈ req.filters)
    (hres : s.list_files req = some l) :
    ∀ e ∈ l, e.name ≠ "." ∧ e.name ≠ ".." := by
  intro e he
  simp only [DiskManager.list_files, htable] at hres
  have hfe : e ∈ (if !req.filters.isEmpty then
        (table.filter (fun x => !(x.name == ""))).filter
          (fun x => req.filters.all (fun f => matchesFilter x f))
      else (table.filter (fun x => !(x.name == ""))).filter (fun x => !x.is_hidden)) := by
    cases hs : req.sort with
    | none =>
      rw [hs] at hres
      exact (Option.some.inj hres) ▸ he
    | some sort =>
      rw [hs] at hres
      exact mem_sortEntries ((Option.some.inj hres) ▸ he)
  have key : e ∈ table ∧ e.is_hidden = false := by
    cases hq : req.filters.isEmpty with
    | true =>
      rw [hq] at hfe
      simp only [Bool.not_true, Bool.false_eq_true, if_false] at hfe
      obtain ⟨h1, h2⟩ := List.mem_filter.mp hfe
      exact ⟨(List.mem_filter.mp h1).1, by simpa using h2⟩
    | false =>
      rw [hq] at hfe
      simp only [Bool.not_false, if_true] at hfe
      obtain ⟨h1, h2⟩ := List.mem_filter.mp hfe
      have hAll : FilterType.All ∈ req.filters := by
        rcases hfil with hf | hf
        · rw [hf] at hq
          simp at hq
        · exact hf
      have hm := List.all_eq_true.mp h2 _ hAll
      exact ⟨(List.mem_filter.mp h1).1, by simpa [matchesFilter] using hm⟩
  refine ⟨fun hn => ?_, fun hn => ?_⟩
  · have := hhid e key.1 (Or.inl hn)
    rw [key.2] at this
    exact absurd this (by simp)
  · have := hhid e key.1 (Or.inr hn)
    rw [key.2] at this
    exact absurd this (by simp)

/-- C7 witness: in the directory `D` holding `.`, `..` and the non-hidden
file `X.TXT`, listing with the empty filter list returns exactly `[X]`, and
the theorem applied there yields that no listed entry is dot-named. -/
theorem c7_witness :
    c10n_lit.list_files ⟨[], none⟩ = some [xEnt]
    ∧ ∀ e ∈ [xEnt], e.name ≠ "." ∧ e.name ≠ ".." := by
  refine ⟨rfl, ?_⟩
  exact c7_dots_filtered_when_hidden c10n_lit ⟨[], none⟩ [dotE, ddE, xEnt] [xEnt]
    rfl (by decide) (Or.inl rfl) rfl

/-- Accumulator characterization of the fold inside `String.intercalate`:
a prefix of the accumulator distributes out. -/
lemma intercalate_go_append (p a s : String) (l : List String) :
    String.intercalate.go (p ++ a) s l = p ++ String.intercalate.go a s l := by
  induction l generalizing a with
  | nil => rfl
  | cons b bs ih =>
    show String.intercalate.go (p ++ a ++ s ++ b) s bs
      = p ++ String.intercalate.go (a ++ s ++ b) s bs
    rw [String.append_assoc, String.append_assoc, ← String.append_assoc a s b]
    exact ih (a ++ s ++ b)

/-- Joining a list headed by the empty string with `/` prepends a single
slash to the join of the tail (for a non-empty tail). -/
lemma intercalate_cons_empty (xs : List String) (hx : xs ≠ []) :
    String.intercalate "/" ("" :: xs) = "/" ++ String.intercalate "/" xs := by
  cases xs with
  | nil => cases hx rfl
  | cons a as =>
    show String.intercalate.go ("/" ++ a) "/" as = "/" ++ String.intercalate.go a "/" as
    exact intercalate_go_append "/" a "/" as

/-- C8 amended: `pwd` returns `"/"` when the working directory is the root
(whose name is `"/"` and which has no parent), and otherwise renders the path
from root as a leading slash followed by the `"/"`-joined sequence of
directory names, with NO trailing slash (for example `"/D"` for directory `D`
directly under root).  The names are those collected parent-by-parent from
the working directory (`upNames`), which always end at the root's name
`"/"`. -/
theorem c8_pwd_amended (s : DiskManager) :
    (s.working_directory.is_root = true → s.working_directory.upNames = ["/"] →
      s.get_working_directory_full_path = "/")
    ∧ (∀ (a : String) (l : List String), s.working_directory.is_root = false →
      s.working_directory.upNames = a :: l ++ ["/"] →
      s.get_working_directory_full_path
        = "/" ++ String.intercalate "/" (l.reverse ++ [a])) := by
  constructor
  · intro hr hup
    simp only [DiskManager.get_working_directory_full_path, hr, hup, Bool.not_true,
      Bool.false_eq_true, if_false]
    rfl
  · intro a l hr hup
    simp only [DiskManager.get_working_directory_full_path, hr, hup, Bool.not_false, if_true]
    have hd : (a :: l ++ ["/"]).dropLast = a :: l := by
      rw [show a :: l ++ ["/"] = (a :: l) ++ ["/"] from rfl]
      exact List.dropLast_concat
    rw [hd]
    have hrev : ((a :: l) ++ [""]).reverse = "" :: (l.reverse ++ [a]) := by simp
    rw [hrev]
    exact intercalate_cons_empty (l.reverse ++ [a]) (by simp)

/-- C8 witness: for the working directory `D` directly under the root the
theorem yields `"/" ++ "D" = "/D"`. -/
theorem c8_witness :
    c8_state.get_working_directory_full_path = "/" ++ String.intercalate "/" ["D"] := by
  exact (c8_pwd_amended c8_state).2 "D" [] rfl rfl

/-- Every cluster of a well-formed chain is a valid FAT index. -/
lemma isChainList_mem_lt (fat : List FatValue) :
    ∀ (l : List Nat), isChainList fat l = true → ∀ x ∈ l, x < fat.length := by
  intro l
  induction l with
  | nil => intro h x hx; cases hx
  | cons c cl ih =>
    intro h x hx
    cases cl with
    | nil =>
      simp only [isChainList, beq_iff_eq] at h
      rcases List.mem_singleton.mp hx with rfl
      rw [List.get?_eq_getElem?] at h
      exact (List.getElem?_eq_some.mp h).1
    | cons c2 rest =>
      simp only [isChainList, Bool.and_eq_true, beq_iff_eq] at h
      rcases List.mem_cons.mp hx with rfl | hx2
      · have h1 := h.1
        rw [List.get?_eq_getElem?] at h1
        exact (List.getElem?_eq_some.mp h1).1
      · exact ih h.2 x hx2

/-- Pigeonhole bound: a duplicate-free chain has at most `fat.length`
clusters (its clusters are distinct valid indices). -/
lemma chain_length_le (fat : List FatValue) (l : List Nat)
    (hc : isChainList fat l = true) (hnd : l.Nodup) : l.length ≤ fat.length := by
  have hsub : l.toFinset ⊆ Finset.range fat.length := by
    intro x hx
    rw [Finset.mem_range]
    exact isChainList_mem_lt fat l hc x (List.mem_toFinset.mp hx)
  have hcard := Finset.card_le_card hsub
  rwa [List.toFinset_card_of_nodup hnd, Finset.card_range] at hcard

/-- The default-valued last element of a chain written head-first is a member
of the chain. -/
lemma getLastD_mem_cons (l : List Nat) (c : Nat) : l.getLastD c ∈ c :: l := by
  induction l generalizing c with
  | nil => exact List.mem_singleton.mpr rfl
  | cons a as ih =>
    rw [List.getLastD_cons]
    rcases List.mem_cons.mp (ih a) with h | h
    · rw [h]
      exact List.mem_cons_of_mem c (List.mem_cons_self a as)
    · exact List.mem_cons_of_mem c (List.mem_cons_of_mem a h)

/-- The chain walk of `cat` on a well-formed chain whose rows all have exactly
one cluster size returns one full cluster per non-final cell, together with
the index of the `EndOfChain` cell. -/
lemma catWalk_chain (cl : List Nat) : ∀ (fuel c : Nat)
    (fat : List FatValue) (storage : List (List Nat)) (cs : Nat),
    isChainList fat (c :: cl) = true →
    ((c :: cl).all fun x => ((storage.get? x).map List.length) == some cs) = true →
    cl.length < fuel →
    ∃ bytes : List Nat,
      catWalk fuel fat storage cs c = some (bytes, cl.getLastD c)
      ∧ bytes.length = cl.length * cs := by
  induction cl with
  | nil =>
    intro fuel c fat storage cs hchain hall hfuel
    obtain ⟨f, rfl⟩ : ∃ f, fuel = f + 1 := ⟨fuel - 1, by omega⟩
    have hget : fat.get? c = some FatValue.EndOfChain := by
      simpa [isChainList] using hchain
    refine ⟨[], ?_, by simp⟩
    simp only [catWalk, hget]
    rfl
  | cons c2 rest ih =>
    intro fuel c fat storage cs hchain hall hfuel
    obtain ⟨f, rfl⟩ : ∃ f, fuel = f + 1 := ⟨fuel - 1, by omega⟩
    simp only [isChainList, Bool.and_eq_true, beq_iff_eq] at hchain
    obtain ⟨hget, hchain2⟩ := hchain
    simp only [List.all_cons, Bool.and_eq_true] at hall
    obtain ⟨hrow0, hall2⟩ := hall
    obtain ⟨row, hrow, hlen⟩ : ∃ row, storage.get? c = some row ∧ row.length = cs := by
      cases hsg : storage.get? c with
      | none => rw [hsg] at hrow0; simp at hrow0
      | some row =>
        rw [hsg] at hrow0
        simp at hrow0
        exact ⟨row, rfl, hrow0⟩
    have hfuel2 : rest.length < f := by
      simp only [List.length_cons] at hfuel
      omega
    obtain ⟨bytes2, hwalk, hblen⟩ := ih f c2 fat storage cs hchain2
      (by simp only [List.all_cons, Bool.and_eq_true]; exact hall2) hfuel2
    refine ⟨row.take cs ++ bytes2, ?_, ?_⟩
    · simp only [catWalk, hget, hrow]
      rw [if_neg (by omega)]
      have htu : (FatValue.Data c2).toU16 = c2 := rfl
      rw [htu, hwalk, List.getLastD_cons]
    · simp only [List.length_append, List.length_take, hblen, hlen, Nat.min_self,
        List.length_cons, Nat.succ_mul]
      omega

/-- C5: for every file whose size is a positive exact multiple of the cluster
size and whose chain is well-formed (consecutive `Data` links ending in
`EndOfChain`, no duplicate cluster, every chained row holding exactly one
cluster size of bytes), `cat` returns exactly `size` bytes: the walk
concatenates full clusters up to the `EndOfChain` cell, and because
`size % cluster_size == 0` with `size != 0` the final cell contributes a full
`cluster_size` bytes instead of `size mod cluster_size = 0` bytes. -/
theorem c5_cat_returns_size_bytes (s : DiskManager) (r : CatRequest)
    (table : List FileEntry) (e : FileEntry) (cl : List Nat)
    (htable : s.get_root_table_for_working_directory = some table)
    (hfind : table.find? (fun x => x.name == r.file_name
      && x.extension == r.file_extension && x.is_file) = some e)
    (hchain : isChainList s.fat (e.first_cluster :: cl) = true)
    (hnd : (e.first_cluster :: cl).Nodup)
    (hrows : rowsOk s (e.first_cluster :: cl) = true)
    (hcs : 0 < s.boot_sector.cluster_size)
    (hsize : e.size = (cl.length + 1) * s.boot_sector.cluster_size) :
    catLength (s.get_file_content r) = some e.size := by
  have hpe := List.find?_some hfind
  have hany : table.any (fun x => x.name == r.file_name
      && x.extension == r.file_extension && x.is_file) = true :=
    List.any_eq_true.mpr ⟨e, List.mem_of_find?_eq_some hfind, hpe⟩
  have hfuel : cl.length < s.fat.length + 1 := by
    have := chain_length_le s.fat (e.first_cluster :: cl) hchain hnd
    simp only [List.length_cons] at this
    omega
  obtain ⟨bytes, hwalk, hblen⟩ := catWalk_chain cl (s.fat.length + 1) e.first_cluster
    s.fat s.storage_buffer s.boot_sector.cluster_size hchain hrows hfuel
  have hlast : cl.getLastD e.first_cluster ∈ e.first_cluster :: cl :=
    getLastD_mem_cons cl e.first_cluster
  have hrowlast := List.all_eq_true.mp hrows _ hlast
  obtain ⟨row, hrow, hlen⟩ : ∃ row,
      s.storage_buffer.get? (cl.getLastD e.first_cluster) = some row
      ∧ row.length = s.boot_sector.cluster_size := by
    cases hsg : s.storage_buffer.get? (cl.getLastD e.first_cluster) with
    | none => rw [hsg] at hrowlast; simp at hrowlast
    | some row =>
      rw [hsg] at hrowlast
      simp at hrowlast
      exact ⟨row, rfl, hrowlast⟩
  have hmod : e.size % s.boot_sector.cluster_size = 0 := by
    rw [hsize]
    exact Nat.mul_mod_left _ _
  have hsz0 : e.size ≠ 0 := by
    rw [hsize]
    exact Nat.mul_ne_zero (by omega) (by omega)
  have hcond : (e.size != 0 && e.size % s.boot_sector.cluster_size == 0) = true := by
    simp [bne_iff_ne, hsz0, hmod]
  simp only [DiskManager.get_file_content, htable, hany, Bool.not_true, Bool.false_eq_true,
    if_false, hfind, hwalk, hrow]
  rw [if_neg (by omega), if_pos hcond, hmod]
  rw [if_neg (by omega : ¬ row.length < 0 + s.boot_sector.cluster_size)]
  simp only [catLength, List.length_append, hblen, List.length_take, hlen, Nat.zero_add,
    Nat.min_self, Option.some.injEq]
  rw [hsize, Nat.succ_mul]

/-- C5 witness: the two-cluster file `M.TXT` (size 32 = 2 × 16, chain
11 → 12 → `EndOfChain`) is read back as exactly 32 bytes. -/
theorem c5_witness :
    catLength (c5_state.get_file_content ⟨"M", "TXT"⟩) = some 32 := by
  exact c5_cat_returns_size_bytes c5_state ⟨"M", "TXT"⟩ c5_state.root c5_entry [12]
    rfl rfl (by decide) (by decide) (by decide) (by decide) rfl

/-- Reading back the position just written by `List.set`. -/
lemma getD_set_eq (l : List Nat) (i v d : Nat) (h : i < l.length) :
    (l.set i v).getD i d = v := by
  rw [List.getD_eq_getElem?_getD, List.getElem?_set_self (by simpa using h)]
  rfl

/-- Reading any other position after a `List.set`. -/
lemma getD_set_ne (l : List Nat) (i j v d : Nat) (h : i ≠ j) :
    (l.set i v).getD j d = l.getD j d := by
  rw [List.getD_eq_getElem?_getD, List.getElem?_set_ne h, ← List.getD_eq_getElem?_getD]

/-- Reading inside the left part of an append. -/
lemma getD_append_left (l l' : List Nat) (n d : Nat) (h : n < l.length) :
    (l ++ l').getD n d = l.getD n d := by
  rw [List.getD_eq_getElem?_getD, List.getElem?_append]
  rw [if_pos h, ← List.getD_eq_getElem?_getD]

/-- Reading inside a zero-filled buffer. -/
lemma getD_replicate_zero (n i d : Nat) (h : i < n) :
    (List.replicate n (0 : Nat)).getD i d = 0 := by
  rw [List.getD_eq_getElem?_getD, List.getElem?_replicate]
  simp [h]

/-- `setBytesFrom` never changes the buffer length. -/
lemma length_setBytesFrom : ∀ (bs l : List Nat) (s : Nat),
    (setBytesFrom l s bs).length = l.length := by
  intro bs
  induction bs with
  | nil => intro l s; rfl
  | cons b bs ih => intro l s; rw [setBytesFrom, ih, List.length_set]

/-- Positions strictly below the write window of `setBytesFrom` are unchanged. -/
lemma getD_setBytesFrom_lt : ∀ (bs l : List Nat) (s i : Nat), i < s →
    (setBytesFrom l s bs).getD i 0 = l.getD i 0 := by
  intro bs
  induction bs with
  | nil => intro l s i _; rfl
  | cons b bs ih =>
    intro l s i h
    rw [setBytesFrom, ih _ _ _ (by omega), getD_set_ne _ _ _ _ _ (by omega)]

/-- Positions at or above the write window of `setBytesFrom` are unchanged. -/
lemma getD_setBytesFrom_ge : ∀ (bs l : List Nat) (s i : Nat), s + bs.length ≤ i →
    (setBytesFrom l s bs).getD i 0 = l.getD i 0 := by
  intro bs
  induction bs with
  | nil => intro l s i _; rfl
  | cons b bs ih =>
    intro l s i h
    simp only [List.length_cons] at h
    rw [setBytesFrom, ih _ _ _ (by omega), getD_set_ne _ _ _ _ _ (by omega)]

/-- Positions inside the write window of `setBytesFrom` read the written
bytes. -/
lemma getD_setBytesFrom_in : ∀ (bs l : List Nat) (s i : Nat), s ≤ i → i < s + bs.length →
    i < l.length → (setBytesFrom l s bs).getD i 0 = bs.getD (i - s) 0 := by
  intro bs
  induction bs with
  | nil => intro l s i _ h2 _; simp at h2; omega
  | cons b bs ih =>
    intro l s i h1 h2 h3
    rw [setBytesFrom]
    rcases Nat.eq_or_lt_of_le h1 with rfl | hlt
    · rw [getD_setBytesFrom_lt _ _ _ _ (by omega), getD_set_eq _ _ _ _ h3]
      simp
    · simp only [List.length_cons] at h2
      rw [ih _ _ _ (by omega) (by omega) (by rw [List.length_set]; exact h3)]
      have hsub : i - s = (i - (s + 1)) + 1 := by omega
      rw [hsub, List.getD_cons_succ]

/-- `List.set` inside the left part of an append. -/
lemma set_append_left : ∀ (l : List Nat) (l' : List Nat) (s v : Nat), s < l.length →
    (l ++ l').set s v = l.set s v ++ l' := by
  intro l
  induction l with
  | nil => intro l' s v h; simp at h
  | cons a t ih =>
    intro l' s v h
    cases s with
    | zero => rfl
    | succ s =>
      simp only [List.cons_append, List.set_cons_succ]
      rw [ih _ _ _ (by simpa using Nat.lt_of_succ_lt_succ h)]

/-- `setBytesFrom` whose window lies inside the left part of an append acts on
that part alone. -/
lemma setBytesFrom_append : ∀ (bs l l' : List Nat) (s : Nat), s + bs.length ≤ l.length →
    setBytesFrom (l ++ l') s bs = setBytesFrom l s bs ++ l' := by
  intro bs
  induction bs with
  | nil => intro l l' s _; rfl
  | cons b bs ih =>
    intro l l' s h
    simp only [List.length_cons] at h
    rw [setBytesFrom, set_append_left _ _ _ _ (by omega), setBytesFrom,
      ih _ _ _ (by rw [List.length_set]; omega)]

/-- Big-endian `u16` byte-pair round-trip. -/
lemma u16_roundtrip (w : Nat) (h : w < 65536) :
    u16_from_be (w / 256 % 256) (w % 256) = w := by
  unfold u16_from_be
  omega

/-- Big-endian `u32` byte-quadruple round-trip. -/
lemma u32_roundtrip (w : Nat) (h : w < 4294967296) :
    u32_from_be (w / 16777216 % 256) (w / 65536 % 256) (w / 256 % 256) (w % 256) = w := by
  unfold u32_from_be
  omega

/-- Iterations of the byte-collect fold past the last nonzero byte are
no-ops. -/
lemma collect_fold_trunc (g : Nat → Nat) (len : Nat) :
    ∀ k, len ≤ k → (∀ i, len ≤ i → i < k → g i = 0) →
    (List.range k).foldl (fun acc i => if g i != 0 then acc.push (Char.ofNat (g i)) else acc) ""
      = (List.range len).foldl
          (fun acc i => if g i != 0 then acc.push (Char.ofNat (g i)) else acc) "" := by
  intro k
  induction k with
  | zero =>
    intro h _
    have hl : len = 0 := by omega
    rw [hl]
  | succ k ih =>
    intro hlk hz
    rcases Nat.eq_or_lt_of_le hlk with heq | hlt
    · rw [heq]
    · rw [List.range_succ, List.foldl_append]
      have hg0 : g k = 0 := hz k (by omega) (by omega)
      simp only [List.foldl_cons, List.foldl_nil, hg0, bne_self_eq_false, Bool.false_eq_true,
        if_false]
      exact ih (by omega) (fun i h1 h2 => hz i h1 (by omega))

/-- The byte-collect fold over exactly the nonzero window reconstructs the
character list. -/
lemma collect_fold_exact : ∀ (l : List Char) (g : Nat → Nat),
    (∀ i, i < l.length → g i = (l.map Char.toNat).getD i 0) →
    (∀ c ∈ l, c.toNat ≠ 0) →
    (List.range l.length).foldl
      (fun acc i => if g i != 0 then acc.push (Char.ofNat (g i)) else acc) "" = ⟨l⟩ := by
  intro l
  induction l using List.reverseRecOn with
  | nil => intro g _ _; rfl
  | append_singleton l' c ih =>
    intro g hg hpos
    rw [List.length_append, List.length_singleton, List.range_succ, List.foldl_append]
    have hgl : g l'.length = c.toNat := by
      rw [hg l'.length (by simp), List.map_append]
      rw [List.getD_eq_getElem?_getD, List.getElem?_append_right (by simp)]
      simp
    have ihr := ih g
      (fun i hi => by
        rw [hg i (by simp only [List.length_append, List.length_singleton]; omega),
          List.map_append, getD_append_left _ _ _ _ (by simpa using hi)])
      (fun c' hc' => hpos c' (List.mem_append_left _ hc'))
    rw [List.foldl_cons, List.foldl_nil, ihr, hgl,
      if_pos (bne_iff_ne.mpr (hpos c (List.mem_append_right _ (List.mem_singleton.mpr rfl)))),
      Char.ofNat_toNat]
    rfl

/-- Full byte-collect fold: window of at most `k` characters, zero bytes
beyond. -/
lemma collect_fold_full (k : Nat) (l : List Char) (g : Nat → Nat)
    (hlen : l.length ≤ k)
    (hg : ∀ i, i < k → g i = (l.map Char.toNat).getD i 0)
    (hpos : ∀ c ∈ l, c.toNat ≠ 0) :
    (List.range k).foldl (fun acc i => if g i != 0 then acc.push (Char.ofNat (g i)) else acc) ""
      = ⟨l⟩ := by
  rw [collect_fold_trunc g l.length k hlen (fun i h1 h2 => by
    rw [hg i h2]
    exact List.getD_eq_default _ _ (by simpa using h1))]
  exact collect_fold_exact l g (fun i hi => hg i (by omega)) hpos

/-- The `u16` FAT-cell codec restores every valid cell (`Data` payloads in
`0x0003..=0xFFFE`). -/
lemma fatValue_roundtrip (c : FatValue) (hv : fatValid c = true) :
    FatValue.ofU16 c.toU16 = c := by
  cases c with
  | Data n =>
    simp only [fatValid, Bool.and_eq_true, decide_eq_true_eq] at hv
    simp only [FatValue.toU16, FatValue.ofU16]
    rw [if_neg (by omega), if_neg (by omega), if_neg (by omega), if_neg (by omega)]
  | Free => rfl
  | Reserved => rfl
  | EndOfChain => rfl
  | Bad => rfl

/-- The boot-sector codec restores every valid boot sector. -/
lemma bootSector_roundtrip (b : BootSector) (hv : bootValid b = true) :
    BootSector.fromBytes b.intoBytes = some b := by
  obtain ⟨cs, cc, rs, rc, fs, cps⟩ := b
  simp only [bootValid, Bool.and_eq_true, decide_eq_true_eq] at hv
  obtain ⟨⟨⟨⟨⟨⟨h12, hcs⟩, hcc⟩, hrs⟩, hrc⟩, hfs⟩, hcps⟩ := hv
  have hsplit : List.replicate cs (0 : Nat)
      = List.replicate 12 0 ++ List.replicate (cs - 12) 0 := by
    rw [← List.replicate_add]
    congr 1
    omega
  have hbytes : BootSector.intoBytes ⟨cs, cc, rs, rc, fs, cps⟩
      = [cs / 256 % 256, cs % 256, cc / 256 % 256, cc % 256, rs / 256 % 256, rs % 256,
         rc / 256 % 256, rc % 256, fs / 256 % 256, fs % 256, cps / 256 % 256, cps % 256]
        ++ List.replicate (cs - 12) 0 := by
    simp only [BootSector.intoBytes, u16_bytes]
    rw [hsplit]
    rw [setBytesFrom_append, setBytesFrom_append, setBytesFrom_append, setBytesFrom_append,
      setBytesFrom_append, setBytesFrom_append]
    · rfl
    all_goals simp [length_setBytesFrom]
  rw [hbytes, BootSector.fromBytes]
  rw [if_neg (by
    simp only [List.length_append, List.length_replicate, List.length_cons, List.length_nil]
    omega)]
  simp [byteAt, getD_append_left, u16_from_be]
  omega

/-- Every month length is at most 31 days. -/
lemma days_in_month_le (y m : Nat) : days_in_month y m ≤ 31 := by
  unfold days_in_month
  split_ifs <;> omega

/-- The packed time word of a valid instant, in additive form: the three
fields do not overlap, so the bitwise ors are sums and the `as u16`
truncation is the identity. -/
lemma timeWord_eq (dt : DateTimeT) (hv : dtValid dt = true) :
    timeWord dt = 2048 * dt.hour + 32 * dt.minute + dt.second / 2 := by
  simp only [dtValid, DateTimeT.valid, Bool.and_eq_true, decide_eq_true_eq, beq_iff_eq] at hv
  obtain ⟨⟨⟨hval, hy1⟩, hy2⟩, hs2⟩ := hv
  obtain ⟨⟨⟨⟨⟨⟨hm1, hm2⟩, hd1⟩, hd2⟩, hh⟩, hmi⟩, hs⟩ := hval
  simp only [timeWord]
  rw [Nat.shiftLeft_eq, Nat.shiftLeft_eq]
  rw [show dt.hour * 2 ^ 11 = 2 ^ 11 * dt.hour from by ring,
    show dt.minute * 2 ^ 5 = 2 ^ 5 * dt.minute from by ring]
  rw [← Nat.mul_add_lt_is_or (show (2 : Nat) ^ 5 * dt.minute < 2 ^ 11 from by omega) dt.hour]
  rw [show (2 : Nat) ^ 11 * dt.hour + 2 ^ 5 * dt.minute
      = 2 ^ 5 * (64 * dt.hour + dt.minute) from by ring]
  rw [← Nat.mul_add_lt_is_or (show dt.second / 2 < 2 ^ 5 from by omega)
    (64 * dt.hour + dt.minute)]
  have hval2 : 2 ^ 5 * (64 * dt.hour + dt.minute) + dt.second / 2
      = 2048 * dt.hour + 32 * dt.minute + dt.second / 2 := by ring
  rw [hval2]
  omega

/-- The packed date word of a valid instant in the 1980–2107 window, in
additive form. -/
lemma dateWord_eq (dt : DateTimeT) (hv : dtValid dt = true) :
    dateWord dt = 512 * (dt.year - 1980) + 32 * dt.month + dt.day := by
  simp only [dtValid, DateTimeT.valid, Bool.and_eq_true, decide_eq_true_eq, beq_iff_eq] at hv
  obtain ⟨⟨⟨hval, hy1⟩, hy2⟩, hs2⟩ := hv
  obtain ⟨⟨⟨⟨⟨⟨hm1, hm2⟩, hd1⟩, hd2⟩, hh⟩, hmi⟩, hs⟩ := hval
  have hd31 : dt.day ≤ 31 := le_trans hd2 (days_in_month_le dt.year dt.month)
  simp only [dateWord]
  have hy : i32_to_u32 ((Int.ofNat dt.year - 1980) * 512) = 512 * (dt.year - 1980) := by
    simp only [i32_to_u32, Int.ofNat_eq_natCast]
    rw [Int.emod_eq_of_lt (by omega) (by omega)]
    omega
  rw [hy, Nat.shiftLeft_eq]
  rw [show dt.month * 2 ^ 5 = 2 ^ 5 * dt.month from by ring,
    show (512 : Nat) * (dt.year - 1980) = 2 ^ 9 * (dt.year - 1980) from by norm_num]
  rw [← Nat.mul_add_lt_is_or (show (2 : Nat) ^ 5 * dt.month < 2 ^ 9 from by omega)
    (dt.year - 1980)]
  rw [show (2 : Nat) ^ 9 * (dt.year - 1980) + 2 ^ 5 * dt.month
      = 2 ^ 5 * (16 * (dt.year - 1980) + dt.month) from by ring]
  rw [← Nat.mul_add_lt_is_or (show dt.day < 2 ^ 5 from by omega)
    (16 * (dt.year - 1980) + dt.month)]
  have hval2 : 2 ^ 5 * (16 * (dt.year - 1980) + dt.month) + dt.day
      = 512 * (dt.year - 1980) + 32 * dt.month + dt.day := by ring
  rw [hval2]
  omega

/-- Unpacking the packed date and time words of a valid representable instant
restores it exactly. -/
lemma convert_roundtrip (dt : DateTimeT) (hv : dtValid dt = true) :
    convert_u16_tuple_to_date_time (dateWord dt) (timeWord dt) = some dt := by
  obtain ⟨y, mo, d, hh, mi, s⟩ := dt
  have hv' := hv
  simp only [dtValid, DateTimeT.valid, Bool.and_eq_true, decide_eq_true_eq, beq_iff_eq] at hv'
  obtain ⟨⟨⟨hval, hy1⟩, hy2⟩, hs2⟩ := hv'
  obtain ⟨⟨⟨⟨⟨⟨hm1, hm2⟩, hd1⟩, hd2⟩, hh24⟩, hmi60⟩, hs60⟩ := hval
  have hd31 : d ≤ 31 := le_trans hd2 (days_in_month_le y mo)
  rw [timeWord_eq _ hv, dateWord_eq _ hv]
  simp only [convert_u16_tuple_to_date_time, Nat.shiftRight_eq_div_pow]
  have hmask4 : ∀ x : Nat, x &&& 0x0F = x % 16 := fun x => by
    have h := Nat.and_pow_two_sub_one_eq_mod x 4
    norm_num at h
    exact h
  have hmask5 : ∀ x : Nat, x &&& 0x1F = x % 32 := fun x => by
    have h := Nat.and_pow_two_sub_one_eq_mod x 5
    norm_num at h
    exact h
  have hmask6 : ∀ x : Nat, x &&& 0x3F = x % 64 := fun x => by
    have h := Nat.and_pow_two_sub_one_eq_mod x 6
    norm_num at h
    exact h
  rw [hmask4, hmask5, hmask5, hmask5, hmask6]
  have ey : (512 * (y - 1980) + 32 * mo + d) / 2 ^ 9 + 1980 = y := by omega
  have emo : (512 * (y - 1980) + 32 * mo + d) / 2 ^ 5 % 16 = mo := by omega
  have ed : (512 * (y - 1980) + 32 * mo + d) % 32 = d := by omega
  have eh : (2048 * hh + 32 * mi + s / 2) / 2 ^ 11 % 32 = hh := by omega
  have emi : (2048 * hh + 32 * mi + s / 2) / 2 ^ 5 % 64 = mi := by omega
  have es : (2048 * hh + 32 * mi + s / 2) % 32 * 2 = s := by omega
  rw [ey, emo, ed, eh, emi, es]
  have hvalid : DateTimeT.valid ⟨y, mo, d, hh, mi, s⟩ = true := by
    simp only [DateTimeT.valid, Bool.and_eq_true, decide_eq_true_eq]
    exact ⟨⟨⟨⟨⟨⟨hm1, hm2⟩, hd1⟩, hd2⟩, hh24⟩, hmi60⟩, hs60⟩
  simp only [mkDateTime]
  rw [if_pos hvalid]

/-- Bytes 0–7 of a serialized record hold the (zero-padded) name bytes. -/
lemma byteAt_entry_name (nm xt : String) (sz fc attr : Nat) (dt : DateTimeT)
    (pe : Option FileEntry) (ce : Option (List FileEntry)) (i : Nat) (hi : i < 8) :
    byteAt (FileEntry.intoBytes (.mk nm xt sz fc attr dt pe ce)) i
      = (nm.toList.map Char.toNat).getD i 0 := by
  simp only [FileEntry.intoBytes, FileEntry.name, FileEntry.extension, FileEntry.size,
    FileEntry.first_cluster, FileEntry.attributes, FileEntry.last_modification_datetime, byteAt]
  rw [getD_setBytesFrom_lt, getD_setBytesFrom_lt, getD_set_ne, getD_setBytesFrom_lt,
    getD_setBytesFrom_lt, getD_setBytesFrom_lt]
  · by_cases hin : i < nm.toList.length
    · rw [getD_setBytesFrom_in]
      · rw [Nat.sub_zero]
      · omega
      · simp only [List.length_map]
        omega
      · simp only [List.length_replicate]
        omega
    · rw [getD_setBytesFrom_ge]
      · rw [getD_replicate_zero]
        · symm
          exact List.getD_eq_default _ _ (by simp only [List.length_map]; omega)
        · omega
      · simp only [List.length_map]
        omega
  all_goals omega

/-- Bytes 8–10 of a serialized record hold the (zero-padded) extension bytes;
the name occupies at most its 8-byte field. -/
lemma byteAt_entry_ext (nm xt : String) (sz fc attr : Nat) (dt : DateTimeT)
    (pe : Option FileEntry) (ce : Option (List FileEntry)) (i : Nat) (hi : i < 3)
    (hn : nm.toList.length ≤ 8) :
    byteAt (FileEntry.intoBytes (.mk nm xt sz fc attr dt pe ce)) (8 + i)
      = (xt.toList.map Char.toNat).getD i 0 := by
  simp only [FileEntry.intoBytes, FileEntry.name, FileEntry.extension, FileEntry.size,
    FileEntry.first_cluster, FileEntry.attributes, FileEntry.last_modification_datetime, byteAt]
  rw [getD_setBytesFrom_lt, getD_setBytesFrom_lt, getD_set_ne, getD_setBytesFrom_lt,
    getD_setBytesFrom_lt]
  · by_cases hin : i < xt.toList.length
    · rw [getD_setBytesFrom_in]
      · congr 1
        omega
      · omega
      · simp only [List.length_map]
        omega
      · simp only [length_setBytesFrom, List.length_replicate]
        omega
    · rw [getD_setBytesFrom_ge]
      · rw [getD_setBytesFrom_ge]
        · rw [getD_replicate_zero]
          · symm
            exact List.getD_eq_default _ _ (by simp only [List.length_map]; omega)
          · omega
        · simp only [List.length_map]
          omega
      · simp only [List.length_map]
        omega
  all_goals omega

/-- Bytes 11–14 of a serialized record hold the big-endian `u32` size. -/
lemma byteAt_entry_size (nm xt : String) (sz fc attr : Nat) (dt : DateTimeT)
    (pe : Option FileEntry) (ce : Option (List FileEntry)) :
    byteAt (FileEntry.intoBytes (.mk nm xt sz fc attr dt pe ce)) 11 = sz / 16777216 % 256
    ∧ byteAt (FileEntry.intoBytes (.mk nm xt sz fc attr dt pe ce)) 12 = sz / 65536 % 256
    ∧ byteAt (FileEntry.intoBytes (.mk nm xt sz fc attr dt pe ce)) 13 = sz / 256 % 256
    ∧ byteAt (FileEntry.intoBytes (.mk nm xt sz fc attr dt pe ce)) 14 = sz % 256 := by
  refine ⟨?_, ?_, ?_, ?_⟩ <;>
  · simp only [FileEntry.intoBytes, FileEntry.name, FileEntry.extension, FileEntry.size,
      FileEntry.first_cluster, FileEntry.attributes, FileEntry.last_modification_datetime, byteAt]
    rw [getD_setBytesFrom_lt, getD_setBytesFrom_lt, getD_set_ne, getD_setBytesFrom_lt]
    · rw [getD_setBytesFrom_in]
      · simp [u32_bytes]
      · omega
      · simp [u32_bytes]
      · simp [length_setBytesFrom]
    all_goals omega

/-- Bytes 15–16 hold the big-endian `u16` first cluster. -/
lemma byteAt_entry_first (nm xt : String) (sz fc attr : Nat) (dt : DateTimeT)
    (pe : Option FileEntry) (ce : Option (List FileEntry)) :
    byteAt (FileEntry.intoBytes (.mk nm xt sz fc attr dt pe ce)) 15 = fc / 256 % 256
    ∧ byteAt (FileEntry.intoBytes (.mk nm xt sz fc attr dt pe ce)) 16 = fc % 256 := by
  refine ⟨?_, ?_⟩ <;>
  · simp only [FileEntry.intoBytes, FileEntry.name, FileEntry.extension, FileEntry.size,
      FileEntry.first_cluster, FileEntry.attributes, FileEntry.last_modification_datetime, byteAt]
    rw [getD_setBytesFrom_lt, getD_setBytesFrom_lt, getD_set_ne]
    · rw [getD_setBytesFrom_in]
      · simp [u16_bytes]
      · omega
      · simp [u16_bytes]
      · simp [length_setBytesFrom]
    all_goals omega

/-- Byte 17 holds the attribute byte. -/
lemma byteAt_entry_attr (nm xt : String) (sz fc attr : Nat) (dt : DateTimeT)
    (pe : Option FileEntry) (ce : Option (List FileEntry)) :
    byteAt (FileEntry.intoBytes (.mk nm xt sz fc attr dt pe ce)) 17 = attr := by
  simp only [FileEntry.intoBytes, FileEntry.name, FileEntry.extension, FileEntry.size,
    FileEntry.first_cluster, FileEntry.attributes, FileEntry.last_modification_datetime, byteAt]
  rw [getD_setBytesFrom_lt, getD_setBytesFrom_lt, getD_set_eq]
  · simp [length_setBytesFrom]
  all_goals omega

/-- Bytes 18–19 hold the packed time word, 20–21 the packed date word. -/
lemma byteAt_entry_words (nm xt : String) (sz fc attr : Nat) (dt : DateTimeT)
    (pe : Option FileEntry) (ce : Option (List FileEntry)) :
    byteAt (FileEntry.intoBytes (.mk nm xt sz fc attr dt pe ce)) 18 = timeWord dt / 256 % 256
    ∧ byteAt (FileEntry.intoBytes (.mk nm xt sz fc attr dt pe ce)) 19 = timeWord dt % 256
    ∧ byteAt (FileEntry.intoBytes (.mk nm xt sz fc attr dt pe ce)) 20 = dateWord dt / 256 % 256
    ∧ byteAt (FileEntry.intoBytes (.mk nm xt sz fc attr dt pe ce)) 21 = dateWord dt % 256 := by
  refine ⟨?_, ?_, ?_, ?_⟩
  · simp only [FileEntry.intoBytes, FileEntry.name, FileEntry.extension, FileEntry.size,
      FileEntry.first_cluster, FileEntry.attributes, FileEntry.last_modification_datetime, byteAt]
    rw [getD_setBytesFrom_lt]
    · rw [getD_setBytesFrom_in]
      · simp [u16_bytes]
      · omega
      · simp [u16_bytes]
      · simp [length_setBytesFrom]
    all_goals omega
  · simp only [FileEntry.intoBytes, FileEntry.name, FileEntry.extension, FileEntry.size,
      FileEntry.first_cluster, FileEntry.attributes, FileEntry.last_modification_datetime, byteAt]
    rw [getD_setBytesFrom_lt]
    · rw [getD_setBytesFrom_in]
      · simp [u16_bytes]
      · omega
      · simp [u16_bytes]
      · simp [length_setBytesFrom]
    all_goals omega
  · simp only [FileEntry.intoBytes, FileEntry.name, FileEntry.extension, FileEntry.size,
      FileEntry.first_cluster, FileEntry.attributes, FileEntry.last_modification_datetime, byteAt]
    rw [getD_setBytesFrom_in]
    · simp [u16_bytes]
    · omega
    · simp [u16_bytes]
    · simp [length_setBytesFrom]
  · simp only [FileEntry.intoBytes, FileEntry.name, FileEntry.extension, FileEntry.size,
      FileEntry.first_cluster, FileEntry.attributes, FileEntry.last_modification_datetime, byteAt]
    rw [getD_setBytesFrom_in]
    · simp [u16_bytes]
    · omega
    · simp [u16_bytes]
    · simp [length_setBytesFrom]

/-- The byte-collect fold of `fromBytes` at offset 0, stated on `byteAt`. -/
lemma collect_at (v : List Nat) (l : List Char) (k : Nat)
    (hlen : l.length ≤ k)
    (hg : ∀ i, i < k → byteAt v i = (l.map Char.toNat).getD i 0)
    (hpos : ∀ c ∈ l, c.toNat ≠ 0) :
    (List.range k).foldl
      (fun acc i => if byteAt v i != 0 then acc.push (Char.ofNat (byteAt v i)) else acc) ""
      = ⟨l⟩ :=
  collect_fold_full k l (fun i => byteAt v i) hlen hg hpos

/-- The byte-collect fold of `fromBytes` at a fixed offset, stated on
`byteAt`. -/
lemma collect_at_off (v : List Nat) (l : List Char) (k off : Nat)
    (hlen : l.length ≤ k)
    (hg : ∀ i, i < k → byteAt v (off + i) = (l.map Char.toNat).getD i 0)
    (hpos : ∀ c ∈ l, c.toNat ≠ 0) :
    (List.range k).foldl
      (fun acc i =>
        if byteAt v (off + i) != 0 then acc.push (Char.ofNat (byteAt v (off + i))) else acc) ""
      = ⟨l⟩ :=
  collect_fold_full k l (fun i => byteAt v (off + i)) hlen hg hpos

/-- The serialized record has exactly 32 bytes. -/
lemma length_entry_intoBytes (e : FileEntry) : e.intoBytes.length = 32 := by
  simp only [FileEntry.intoBytes, length_setBytesFrom, List.length_set, List.length_replicate]

/-- The 32-byte record codec restores every valid detached directory record. -/
lemma fileEntry_roundtrip (e : FileEntry) (hv : entryValid e = true)
    (hp : e.parent_entry = none) (hc : e.children_entries = none) :
    FileEntry.fromBytes e.intoBytes = some e := by
  obtain ⟨nm, xt, sz, fc, attr, dt, pe, ce⟩ := e
  simp only [FileEntry.parent_entry] at hp
  simp only [FileEntry.children_entries] at hc
  subst hp
  subst hc
  simp only [entryValid, Bool.and_eq_true, decide_eq_true_eq, List.all_eq_true,
    FileEntry.name, FileEntry.extension, FileEntry.size, FileEntry.first_cluster,
    FileEntry.attributes, FileEntry.last_modification_datetime] at hv
  obtain ⟨⟨⟨⟨⟨⟨⟨hn8, hnc⟩, hx3⟩, hxc⟩, hsz⟩, hfc⟩, hattr⟩, hdt⟩ := hv
  have hposn : ∀ c ∈ nm.toList, c.toNat ≠ 0 := fun c hcm => by
    have := hnc c hcm
    omega
  have hposx : ∀ c ∈ xt.toList, c.toNat ≠ 0 := fun c hcm => by
    have := hxc c hcm
    omega
  obtain ⟨hb11, hb12, hb13, hb14⟩ := byteAt_entry_size nm xt sz fc attr dt none none
  obtain ⟨hb15, hb16⟩ := byteAt_entry_first nm xt sz fc attr dt none none
  have hb17 := byteAt_entry_attr nm xt sz fc attr dt none none
  obtain ⟨hb18, hb19, hb20, hb21⟩ := byteAt_entry_words nm xt sz fc attr dt none none
  have hlen32 := length_entry_intoBytes (.mk nm xt sz fc attr dt none none)
  simp only [FileEntry.fromBytes]
  rw [hlen32, if_neg (by omega)]
  rw [collect_at _ nm.toList 8 hn8 (byteAt_entry_name nm xt sz fc attr dt none none) hposn]
  rw [collect_at_off _ xt.toList 3 8 hx3
    (fun i hi => byteAt_entry_ext nm xt sz fc attr dt none none i hi hn8) hposx]
  rw [hb11, hb12, hb13, hb14, hb15, hb16, hb17, hb18, hb19, hb20, hb21]
  rw [u32_roundtrip sz hsz, u16_roundtrip fc hfc,
    u16_roundtrip (timeWord dt) (by unfold timeWord; omega),
    u16_roundtrip (dateWord dt) (by unfold dateWord; omega)]
  rw [convert_roundtrip dt hdt]
  obtain ⟨nmd⟩ := nm
  obtain ⟨xtd⟩ := xt
  rfl

/-- C6: the three on-disk codecs are inverted exactly by their decoders on
every valid value: a FAT cell (`Data` payloads in `0x0003..=0xFFFE`) survives
the `u16` round-trip; a valid boot sector (all `u16` fields, cluster size at
least the 12 header bytes) survives the byte round-trip; a valid detached
directory record (ASCII nonzero name of at most 8 bytes, extension of at most
3, `u32` size, `u16` first cluster, `u8` attributes, representable timestamp)
survives the 32-byte record round-trip. -/
theorem c6_codec_roundtrip :
    (∀ c : FatValue, fatValid c = true → FatValue.ofU16 c.toU16 = c)
    ∧ (∀ b : BootSector, bootValid b = true → BootSector.fromBytes b.intoBytes = some b)
    ∧ (∀ e : FileEntry, entryValid e = true → e.parent_entry = none →
        e.children_entries = none → FileEntry.fromBytes e.intoBytes = some e) :=
  ⟨fatValue_roundtrip, bootSector_roundtrip, fileEntry_roundtrip⟩

/-- C6 witness: the round-trips at a `Data` cell, the 16-byte boot sector and
the record of `M.TXT`. -/
theorem c6_witness :
    FatValue.ofU16 (FatValue.Data 11).toU16 = FatValue.Data 11
    ∧ BootSector.fromBytes bs16.intoBytes = some bs16
    ∧ FileEntry.fromBytes c5_entry.intoBytes = some c5_entry :=
  ⟨c6_codec_roundtrip.1 (FatValue.Data 11) (by decide),
   c6_codec_roundtrip.2.1 bs16 (by decide),
   c6_codec_roundtrip.2.2 c5_entry (by decide) rfl rfl⟩

/-- The child list installed by `withChildren` is read back unchanged. -/
lemma children_withChildren (e : FileEntry) (c : Option (List FileEntry)) :
    (e.withChildren c).children_entries = c := by
  obtain ⟨n, x, sz, fc, a, d, p, ch⟩ := e
  rfl

/-- Reading back the cell just set in a FAT. -/
lemma get?_set_self (l : List FatValue) (i : Nat) (v : FatValue) (h : i < l.length) :
    (l.set i v).get? i = some v := by
  rw [List.get?_eq_getElem?, List.getElem?_set_self (by simpa using h)]

/-- Reading any other cell after a FAT set. -/
lemma get?_set_ne (l : List FatValue) (i j : Nat) (v : FatValue) (h : i ≠ j) :
    (l.set i v).get? j = l.get? j := by
  rw [List.get?_eq_getElem?, List.getElem?_set_ne h, ← List.get?_eq_getElem?]

/-- Chain well-formedness only reads the chain's own cells. -/
lemma isChainList_congr (fat fat2 : List FatValue) :
    ∀ (l : List Nat), (∀ x ∈ l, fat2.get? x = fat.get? x) →
    isChainList fat2 l = isChainList fat l := by
  intro l
  induction l with
  | nil => intro _; rfl
  | cons c cl ih =>
    intro hx
    cases cl with
    | nil => simp only [isChainList, hx c (List.mem_singleton.mpr rfl)]
    | cons c2 rest =>
      simp only [isChainList, hx c (List.mem_cons_self c _),
        ih (fun x hm => hx x (List.mem_cons_of_mem c hm))]

/-- The chain-free walk of `free_clusters` on a well-formed duplicate-free
chain terminates and sets exactly the chain's cells to `Free`, leaving every
other cell unchanged. -/
lemma freeClustersGo_chain : ∀ (cl : List Nat) (fuel : Nat) (fat : List FatValue) (c : Nat),
    isChainList fat (c :: cl) = true → (c :: cl).Nodup → cl.length < fuel →
    ∃ fat2, freeClustersGo fuel fat c = some fat2
      ∧ (∀ x ∈ c :: cl, fat2.get? x = some FatValue.Free)
      ∧ (∀ x, x ∉ c :: cl → fat2.get? x = fat.get? x) := by
  intro cl
  induction cl with
  | nil =>
    intro fuel fat c hchain hnd hfuel
    obtain ⟨f, rfl⟩ : ∃ f, fuel = f + 1 := ⟨fuel - 1, by omega⟩
    have hget : fat.get? c = some FatValue.EndOfChain := by
      simpa [isChainList] using hchain
    have hc : c < fat.length := by
      rw [List.get?_eq_getElem?] at hget
      exact (List.getElem?_eq_some.mp hget).1
    refine ⟨fat.set c .Free, by simp only [freeClustersGo, hget], ?_, ?_⟩
    · intro x hx
      rcases List.mem_singleton.mp hx with rfl
      exact get?_set_self fat x .Free hc
    · intro x hx
      exact get?_set_ne fat c x .Free (fun hcx => hx (by simp [hcx]))
  | cons c2 rest ih =>
    intro fuel fat c hchain hnd hfuel
    obtain ⟨f, rfl⟩ : ∃ f, fuel = f + 1 := ⟨fuel - 1, by omega⟩
    simp only [isChainList, Bool.and_eq_true, beq_iff_eq] at hchain
    obtain ⟨hget, hchain2⟩ := hchain
    have hc : c < fat.length := by
      rw [List.get?_eq_getElem?] at hget
      exact (List.getElem?_eq_some.mp hget).1
    have hcnot : c ∉ c2 :: rest := (List.nodup_cons.mp hnd).1
    have hchain2' : isChainList (fat.set c .Free) (c2 :: rest) = true := by
      rw [isChainList_congr fat (fat.set c .Free) (c2 :: rest)
        (fun x hm => get?_set_ne fat c x .Free (fun hcx => hcnot (hcx ▸ hm)))]
      exact hchain2
    obtain ⟨fat2, hrun, hfree, hkeep⟩ := ih f (fat.set c .Free) c2 hchain2'
      (List.nodup_cons.mp hnd).2 (by simp only [List.length_cons] at hfuel; omega)
    refine ⟨fat2, ?_, ?_, ?_⟩
    · simp only [freeClustersGo, hget]
      have htu : (FatValue.Data c2).toU16 = c2 := rfl
      rw [htu]
      exact hrun
    · intro x hx
      rcases List.mem_cons.mp hx with rfl | hm
      · rw [hkeep x hcnot]
        exact get?_set_self fat x .Free hc
      · exact hfree x hm
    · intro x hx
      rw [hkeep x (fun hm => hx (List.mem_cons_of_mem c hm))]
      exact get?_set_ne fat c x .Free (fun hcx => hx (by simp [hcx]))

/-- The only error `write_data_to_disk` ever reports is the out-of-space
error of the mid-chain `find_free` failure (after its rollback). -/
lemma writeDataGo_error_msg : ∀ (fuel : Nat) (s : DiskManager) (fe : FileEntry)
    (data : List Nat) (cur rem : Nat) (msg : String) (s' : DiskManager),
    writeDataGo fuel s fe data cur rem = some (.error msg, s') →
    msg = "No space in fat" := by
  intro fuel
  induction fuel with
  | zero => intro s fe data cur rem msg s' h; cases h
  | succ fuel ih =>
    intro s fe data cur rem msg s' h
    rw [writeDataGo] at h
    by_cases h0 : rem = 0
    · rw [if_pos h0] at h
      simp at h
    · rw [if_neg h0] at h
      cases hff : get_next_free_cluster_index_gt s.fat cur with
      | some next =>
        simp only [hff] at h
        by_cases hc1 : cur < s.fat.length
        · rw [if_pos hc1] at h
          by_cases hc2 : data.length < min s.boot_sector.cluster_size rem
          · rw [if_pos hc2] at h
            cases h
          · rw [if_neg hc2] at h
            by_cases hc3 : cur < (s.storage_buffer).length
            · rw [if_pos hc3] at h
              by_cases hc4 : rem > s.boot_sector.cluster_size
              · rw [if_pos hc4] at h
                exact ih _ _ _ _ _ _ _ h
              · rw [if_neg hc4] at h
                simp at h
            · rw [if_neg hc3] at h
              cases h
        · rw [if_neg hc1] at h
          cases h
      | none =>
        simp only [hff] at h
        by_cases hc1 : cur < s.fat.length
        · rw [if_pos hc1] at h
          cases hfc : DiskManager.free_clusters
              { s with fat := s.fat.set cur FatValue.EndOfChain } fe with
          | none => simp [hfc] at h
          | some s2 =>
            simp only [hfc] at h
            cases hffe : s2.free_file_entry fe with
            | none => simp [hffe] at h
            | some s3 =>
              simp only [hffe] at h
              cases hsy : s3.sync_directory_root_table_to_storage s3.working_directory with
              | none => simp [hsy] at h
              | some s4 =>
                simp only [hsy, Option.some.injEq, Prod.mk.injEq, Except.error.injEq] at h
                exact h.1.symm
        · rw [if_neg hc1] at h
          cases h

/-- C2 amended: the rollback of a mid-chain `find_free` failure works as
follows.  (i) `free_clusters`, applied to the entry after the partial chain is
terminated with `EndOfChain`, sets every FAT cell of the entry's well-formed
chain back to `Free` while leaving every other FAT cell, the storage bytes
(so the visited clusters' bytes are NOT zeroed), the root table and the
working directory unchanged.  (ii) `free_file_entry` removes the owning entry
from the non-root working directory's child list, touching neither FAT nor
storage.  (iii) The only error `write_data_to_disk` ever returns after this
rollback is the out-of-space error.  (In the root working directory the
rollback instead diverges on the root pseudo-entry, per the
counterexample.) -/
theorem c2_rollback_amended :
    (∀ (s : DiskManager) (e : FileEntry) (cl : List Nat),
      isChainList s.fat (e.first_cluster :: cl) = true →
      (e.first_cluster :: cl).Nodup →
      ∃ s2, s.free_clusters e = some s2
        ∧ (∀ x ∈ e.first_cluster :: cl, s2.fat.get? x = some FatValue.Free)
        ∧ (∀ x, x ∉ e.first_cluster :: cl → s2.fat.get? x = s.fat.get? x)
        ∧ s2.storage_buffer = s.storage_buffer
        ∧ s2.root = s.root ∧ s2.working_directory = s.working_directory)
    ∧ (∀ (s : DiskManager) (e : FileEntry) (children : List FileEntry),
      s.working_directory.is_root = false →
      s.working_directory.children_entries = some children →
      ∃ s2, s.free_file_entry e = some s2
        ∧ s2.working_directory.children_entries = some (children.filter
            (fun x => !(x.name == e.name && x.extension == e.extension)))
        ∧ s2.fat = s.fat ∧ s2.storage_buffer = s.storage_buffer)
    ∧ (∀ (fuel : Nat) (s : DiskManager) (fe : FileEntry) (data : List Nat)
        (cur rem : Nat) (msg : String) (s' : DiskManager),
      writeDataGo fuel s fe data cur rem = some (.error msg, s') →
      msg = "No space in fat") := by
  refine ⟨?_, ?_, writeDataGo_error_msg⟩
  · intro s e cl hchain hnd
    have hlen : cl.length < 2 * s.fat.length + 8 := by
      have := chain_length_le s.fat (e.first_cluster :: cl) hchain hnd
      simp only [List.length_cons] at this
      omega
    obtain ⟨fat2, hrun, hfree, hkeep⟩ :=
      freeClustersGo_chain cl (2 * s.fat.length + 8) s.fat e.first_cluster hchain hnd hlen
    refine ⟨{ s with fat := fat2 }, ?_, hfree, hkeep, rfl, rfl, rfl⟩
    simp only [DiskManager.free_clusters, hrun]
  · intro s e children hroot hch
    simp only [DiskManager.free_file_entry, hroot, Bool.false_eq_true, if_false, hch]
    exact ⟨_, rfl, children_withChildren _ _, rfl, rfl⟩

/-- C2 witness: freeing the directory `D` (chain 12 → 13 → 14 → 15) on the
post-mkdir state frees exactly those four cells and keeps the storage; and
removing `X.TXT` from `D`'s child list `[., .., X]` leaves `[., ..]`. -/
theorem c2_witness :
    (∃ s2, stateD_lit.free_clusters dirD = some s2
      ∧ (∀ x ∈ dirD.first_cluster :: [13, 14, 15], s2.fat.get? x = some FatValue.Free)
      ∧ (∀ x, x ∉ dirD.first_cluster :: [13, 14, 15] → s2.fat.get? x = stateD_lit.fat.get? x)
      ∧ s2.storage_buffer = stateD_lit.storage_buffer
      ∧ s2.root = stateD_lit.root ∧ s2.working_directory = stateD_lit.working_directory)
    ∧ (∃ s2, c10n_lit.free_file_entry xEnt = some s2
      ∧ s2.working_directory.children_entries = some ([dotE, ddE, xEnt].filter
          (fun x => !(x.name == xEnt.name && x.extension == xEnt.extension)))
      ∧ s2.fat = c10n_lit.fat ∧ s2.storage_buffer = c10n_lit.storage_buffer)
    ∧ ("No space in fat" : String) = "No space in fat" := by
  have hrun : writeDataGo (128 % 65536 + 2) stateD_lit
      (FileEntry.mk "A" "TXT" 128 16 5 dt2023 (some dirD) none)
      (ContentGenerator.generate .Alpha 128) 16 (128 % 65536)
      = some (.error "No space in fat", stateD_fail_lit) := rfl
  exact ⟨c2_rollback_amended.1 stateD_lit dirD [13, 14, 15] (by decide) (by decide),
    c2_rollback_amended.2.1 c10n_lit xEnt [dotE, ddE, xEnt] rfl rfl,
    c2_rollback_amended.2.2 _ _ _ _ _ _ _ _ hrun⟩

/-- Specification of the free-cell search: the index returned is strictly
above `current`, in range, and holds `Free`. -/
lemma findFreeFrom_spec : ∀ (fat : List FatValue) (current i j : Nat),
    findFreeFrom current fat i = some j →
    current < j ∧ i ≤ j ∧ j - i < fat.length ∧ fat.get? (j - i) = some FatValue.Free := by
  intro fat
  induction fat with
  | nil => intro current i j h; cases h
  | cons v rest ih =>
    intro current i j h
    simp only [findFreeFrom] at h
    split at h
    · have hij := Option.some.inj h
      subst hij
      rename_i hc
      refine ⟨hc.2, Nat.le_refl _, by simp, ?_⟩
      rw [Nat.sub_self]
      simp [hc.1]
    · obtain ⟨h1, h2, h3, h4⟩ := ih current (i + 1) j h
      refine ⟨h1, by omega, by simp only [List.length_cons]; omega, ?_⟩
      have hsub : j - i = (j - (i + 1)) + 1 := by omega
      rw [hsub, List.get?_cons_succ]
      exact h4

/-- Specification of `get_next_free_cluster_index_gt`. -/
lemma get_next_free_spec (fat : List FatValue) (cur j : Nat)
    (h : get_next_free_cluster_index_gt fat cur = some j) :
    cur < j ∧ j < fat.length ∧ fat.get? j = some FatValue.Free := by
  obtain ⟨h1, _, h3, h4⟩ := findFreeFrom_spec fat cur 0 j h
  rw [Nat.sub_zero] at h3 h4
  exact ⟨h1, h3, h4⟩

/-- Setting a cell below the dropped prefix does not change the suffix. -/
lemma drop_set_of_lt : ∀ (l : List FatValue) (i n : Nat) (v : FatValue), i < n →
    (l.set i v).drop n = l.drop n := by
  intro l
  induction l with
  | nil => intro i n v _; rfl
  | cons a t ih =>
    intro i n v h
    cases i with
    | zero =>
      cases n with
      | zero => omega
      | succ n => simp only [List.set_cons_zero, List.drop_succ_cons]
    | succ i =>
      cases n with
      | zero => omega
      | succ n =>
        simp only [List.set_cons_succ, List.drop_succ_cons]
        exact ih i n v (by omega)

/-- The free-cell count is additive over append. -/
lemma countFree_append (a b : List FatValue) :
    countFree (a ++ b) = countFree a + countFree b := by
  simp [countFree, List.filter_append]

/-- Dropping a prefix can only lower the free-cell count. -/
lemma countFree_drop_le (l : List FatValue) (k : Nat) :
    countFree (l.drop k) ≤ countFree l := by
  conv_rhs => rw [← List.take_append_drop k l]
  rw [countFree_append]
  omega

/-- A `Free` cell heads its own suffix. -/
lemma drop_eq_free_cons (fat : List FatValue) (c : Nat)
    (h : fat.get? c = some FatValue.Free) :
    fat.drop c = FatValue.Free :: fat.drop (c + 1) := by
  rw [List.get?_eq_getElem?] at h
  obtain ⟨hlt, hval⟩ := List.getElem?_eq_some.mp h
  rw [List.drop_eq_getElem_cons hlt, hval]

/-- A suffix headed by a `Free` cell has a positive free-cell count. -/
lemma countFree_drop_pos (fat : List FatValue) (c : Nat)
    (h : fat.get? c = some FatValue.Free) :
    0 < countFree (fat.drop c) := by
  rw [drop_eq_free_cons fat c h]
  simp [countFree]

/-- Dropping past a `Free` cell strictly lowers the free-cell count of the
suffix. -/
lemma countFree_lt_of_free (fat : List FatValue) (c n : Nat) (hcn : c < n)
    (hfree : fat.get? c = some FatValue.Free) :
    countFree (fat.drop n) < countFree (fat.drop c) := by
  rw [drop_eq_free_cons fat c hfree]
  have hcons : countFree (FatValue.Free :: fat.drop (c + 1))
      = countFree (fat.drop (c + 1)) + 1 := by
    simp [countFree]
  rw [hcons]
  have hmono : countFree (fat.drop n) ≤ countFree (fat.drop (c + 1)) := by
    have hdd : fat.drop n = (fat.drop (c + 1)).drop (n - (c + 1)) := by
      rw [List.drop_drop]
      congr 1
      omega
    rw [hdd]
    exact countFree_drop_le _ _
  omega

/-- Splitting one cluster off the ceiling division. -/
lemma ceilDiv_chunk (r cs : Nat) (hcs : 0 < cs) (h : cs < r) :
    ceilDiv r cs = ceilDiv (r - cs) cs + 1 := by
  unfold ceilDiv
  have h1 : r + cs - 1 = (r - cs + cs - 1) + cs := by omega
  rw [h1, Nat.add_div_right _ hcs]

/-- A final partial cluster is exactly one cluster. -/
lemma ceilDiv_last (r cs : Nat) (h1 : 0 < r) (h2 : r ≤ cs) : ceilDiv r cs = 1 := by
  unfold ceilDiv
  exact Nat.div_eq_of_lt_le (by omega) (by omega)

/-- Counting bound of the chain-writing loop: a successful run starting from a
`Free` cell consumes one `Free` cell per written chunk and still needs the
final `find_free` to see one more, so the suffix from the start holds
strictly more than `ceil(remaining / cluster_size)` free cells. -/
lemma writeDataGo_ok_free_bound : ∀ (fuel : Nat) (s : DiskManager) (fe : FileEntry)
    (data : List Nat) (cur rem : Nat) (s' : DiskManager),
    writeDataGo fuel s fe data cur rem = some (.ok (), s') →
    0 < rem → 0 < s.boot_sector.cluster_size →
    s.fat.get? cur = some FatValue.Free →
    ceilDiv rem s.boot_sector.cluster_size < countFree (s.fat.drop cur) := by
  intro fuel
  induction fuel with
  | zero => intro s fe data cur rem s' h; cases h
  | succ fuel ih =>
    intro s fe data cur rem s' h hrem hcs hfree
    rw [writeDataGo] at h
    rw [if_neg (by omega)] at h
    cases hff : get_next_free_cluster_index_gt s.fat cur with
    | none =>
      simp only [hff] at h
      by_cases hc1 : cur < s.fat.length
      · rw [if_pos hc1] at h
        cases hfc : DiskManager.free_clusters
            { s with fat := s.fat.set cur FatValue.EndOfChain } fe with
        | none => simp [hfc] at h
        | some s2 =>
          simp only [hfc] at h
          cases hffe : s2.free_file_entry fe with
          | none => simp [hffe] at h
          | some s3 =>
            simp only [hffe] at h
            cases hsy : s3.sync_directory_root_table_to_storage s3.working_directory with
            | none => simp [hsy] at h
            | some s4 => simp [hsy] at h
      · rw [if_neg hc1] at h
        cases h
    | some next =>
      simp only [hff] at h
      obtain ⟨hgt, hlt, hnfree⟩ := get_next_free_spec s.fat cur next hff
      by_cases hc1 : cur < s.fat.length
      · rw [if_pos hc1] at h
        by_cases hc2 : data.length < min s.boot_sector.cluster_size rem
        · rw [if_pos hc2] at h
          cases h
        · rw [if_neg hc2] at h
          by_cases hc3 : cur < s.storage_buffer.length
          · rw [if_pos hc3] at h
            by_cases hc4 : rem > s.boot_sector.cluster_size
            · rw [if_pos hc4] at h
              have hfree2 : ((s.fat.set cur (FatValue.Data (next % 65536))).get? next)
                  = some FatValue.Free := by
                rw [get?_set_ne _ _ _ _ (by omega)]
                exact hnfree
              have hb := ih _ fe _ next (rem - s.boot_sector.cluster_size) s' h
                (by omega) hcs hfree2
              rw [drop_set_of_lt _ _ _ _ hgt] at hb
              have hb2 : ceilDiv (rem - s.boot_sector.cluster_size) s.boot_sector.cluster_size
                  < countFree (s.fat.drop next) := hb
              have hlt2 := countFree_lt_of_free s.fat cur next hgt hfree
              rw [ceilDiv_chunk rem s.boot_sector.cluster_size hcs hc4]
              omega
            · rw [if_neg hc4] at h
              rw [ceilDiv_last rem s.boot_sector.cluster_size hrem (by omega)]
              have hpos := countFree_drop_pos s.fat next hnfree
              have hlt2 := countFree_lt_of_free s.fat cur next hgt hfree
              omega
          · rw [if_neg hc3] at h
            cases h
      · rw [if_neg hc1] at h
        cases h

/-- C9 amended: for every reachable-shape state and every request of positive
size below the `u16` write bound, when the number of `Free` FAT cells equals
exactly `ceil(size / cluster_size)`, `create_file` cannot return `Ok`: each
chunk write — including the final one — first requires `find_free` to return
a `Free` cell with an index strictly greater than the current cluster, so a
success needs at least one `Free` cell beyond those consumed by the chain.
With one such spare cell a create can succeed: on the fresh 16-cluster image
(5 free cells) the 64-byte create needs `ceil(64/16) = 4` chain cells and
returns `Ok`. -/
theorem c9_needs_one_extra_cell :
    (∀ (s : DiskManager) (r : CreateRequest),
      0 < s.boot_sector.cluster_size → s.fat.length ≤ 65536 →
      0 < r.size → r.size < 65536 →
      countFree s.fat = ceilDiv r.size s.boot_sector.cluster_size →
      opOk (s.create_file r) = false)
    ∧ (countFree fresh16.fat = 5
      ∧ ceilDiv c9_req_success.size bs16.cluster_size = 4
      ∧ fresh16.create_file c9_req_success = some (.ok (), c9s_lit)) := by
  refine ⟨?_, rfl, rfl, rfl⟩
  intro s r hcs hfat hsz hszlt hfree
  unfold DiskManager.create_file
  cases htab : s.get_root_table_for_working_directory with
  | none => rfl
  | some table =>
    simp only []
    cases hdup : table.any (fun e => e.name == r.name && e.extension == r.extension) with
    | true => simp only [hdup, if_true]; rfl
    | false =>
      simp only [hdup, Bool.false_eq_true, if_false]
      cases hfull : s.working_directory.is_root && s.root.all (fun e => !(e.name == "")) with
      | true => simp only [hfull, if_true]; rfl
      | false =>
        simp only [hfull, Bool.false_eq_true, if_false]
        rw [if_neg (by omega)]
        cases hff : get_next_free_cluster_index_gt s.fat 0 with
        | none => simp only [hff]; rfl
        | some first =>
          simp only [hff]
          obtain ⟨hgt0, hflt, hfcell⟩ := get_next_free_spec s.fat 0 first hff
          cases hw : s.write_data_to_disk
              (FileEntry.mk r.name r.extension r.size (first % 65536) r.attributes
                r.last_modification_datetime (some s.working_directory) none)
              (ContentGenerator.generate r.content_type r.size) with
          | none => simp only [hw]; rfl
          | some p =>
            obtain ⟨res, s2⟩ := p
            cases res with
            | error e => simp only [hw]; rfl
            | ok u =>
              exfalso
              cases u
              rw [DiskManager.write_data_to_disk] at hw
              simp only [FileEntry.size, FileEntry.first_cluster] at hw
              rw [Nat.mod_eq_of_lt hszlt,
                Nat.mod_eq_of_lt (show first < 65536 by omega)] at hw
              have hb := writeDataGo_ok_free_bound (r.size + 2) s _ _ first r.size s2 hw
                hsz hcs hfcell
              have hle := countFree_drop_le s.fat first
              omega

/-- C9 witness: the exact-fit 66-byte create on the fresh 16-cluster image
(5 free cells, `ceil(66/16) = 5`) does not return `Ok` (it in fact never
returns, per the counterexample). -/
theorem c9_witness : opOk (fresh16.create_file c9_req_exact) = false :=
  c9_needs_one_extra_cell.1 fresh16 c9_req_exact (by decide) (by decide) (by decide)
    (by decide) rfl

/-- A size-0 write needs no clusters. -/
lemma ceilDiv_zero (b : Nat) : ceilDiv 0 b = 0 := by
  unfold ceilDiv
  cases b with
  | zero => rfl
  | succ n => rw [Nat.div_eq_of_lt (by omega)]

/-- C10 amended: in the ROOT working directory, whenever a size-0 create's
preconditions pass (no duplicate, an empty root slot at index `i`, a `Free`
cluster at `head`), the operation succeeds and attaches an entry whose
`first_cluster` is the `Free` index returned by `find_free` — the
chain-writing loop executes zero iterations, so the returned state differs
from the input only in the filled root slot: the FAT is unchanged,
`FAT[first_cluster]` remains `Free`, and no well-formed chain (consecutive
`Data` links ending in `EndOfChain`) starts at `first_cluster`, so a
subsequent `cat` cannot reach `EndOfChain` through the entry's own clusters.
(In a non-root working directory the head cluster does not remain `Free`,
per the counterexample.) -/
theorem c10_root_size_zero_dangling (s : DiskManager) (r : CreateRequest) (head i : Nat)
    (hroot : s.working_directory.is_root = true)
    (hsize : r.size = 0)
    (hfat : s.fat.length ≤ 65536)
    (hdup : s.root.any (fun e => e.name == r.name && e.extension == r.extension) = false)
    (hidx : s.root.findIdx? (fun e => e.name == "") = some i)
    (hfree : get_next_free_cluster_index_gt s.fat 0 = some head) :
    s.create_file r = some (.ok (), { s with root := (s.root.set i
        (FileEntry.mk r.name r.extension r.size head r.attributes
          r.last_modification_datetime (some s.working_directory) none)) })
    ∧ s.fat.get? head = some FatValue.Free
    ∧ ∀ cl, isChainList s.fat (head :: cl) = false := by
  obtain ⟨hgt, hlt, hcell⟩ := get_next_free_spec s.fat 0 head hfree
  have hmod : head % 65536 = head := Nat.mod_eq_of_lt (by omega)
  have htab : s.get_root_table_for_working_directory = some s.root := by
    simp [DiskManager.get_root_table_for_working_directory, hroot]
  have hfull : (s.working_directory.is_root && s.root.all fun e => !(e.name == "")) = false := by
    cases hall : s.root.all (fun e => !(e.name == "")) with
    | false => simp [hall]
    | true =>
      exfalso
      have hnone : s.root.findIdx? (fun e => e.name == "") = none := by
        rw [List.findIdx?_eq_none_iff]
        intro x hx
        have := List.all_eq_true.mp hall x hx
        simpa using this
      rw [hnone] at hidx
      cases hidx
  refine ⟨?_, hcell, ?_⟩
  · unfold DiskManager.create_file
    rw [htab]
    simp only [hdup, Bool.false_eq_true, if_false, hfull]
    rw [if_neg (by rw [hsize, ceilDiv_zero]; omega)]
    simp only [hfree]
    have hwrite : s.write_data_to_disk (FileEntry.mk r.name r.extension r.size (head % 65536)
        r.attributes r.last_modification_datetime (some s.working_directory) none)
        (ContentGenerator.generate r.content_type r.size) = some (.ok (), s) := by
      rw [DiskManager.write_data_to_disk]
      simp only [FileEntry.size, FileEntry.first_cluster]
      rw [hsize]
      rfl
    simp only [hwrite]
    unfold DiskManager.append_to_root_table_of_working_dir
    simp only [hroot, if_true, hidx, hmod]
  · intro cl
    have hcell2 : s.fat[head]? = some FatValue.Free := by
      rw [← List.get?_eq_getElem?]
      exact hcell
    cases cl with
    | nil => simp [isChainList, hcell2]
    | cons c2 rest => simp [isChainList, hcell2]

/-- C10 witness: the size-0 create of `Z.TXT` on the fresh 16-cluster image
succeeds with `first_cluster = 11`, `FAT[11]` stays `Free`, no well-formed
chain starts at 11, and the subsequent `cat` of `Z.TXT` indeed never
returns. -/
theorem c10_witness :
    fresh16.create_file c10_root_req = some (.ok (), c10r_lit)
    ∧ fresh16.fat.get? 11 = some FatValue.Free
    ∧ (∀ cl, isChainList fresh16.fat (11 :: cl) = false)
    ∧ c10r_lit.get_file_content ⟨"Z", "TXT"⟩ = none := by
  obtain ⟨h1, h2, h3⟩ := c10_root_size_zero_dangling fresh16 c10_root_req 11 0 rfl rfl
    (by decide) (by decide) rfl rfl
  exact ⟨h1, h2, h3, rfl⟩

end Rodos
